import Mathlib

/-!
Shallow embedding of fast_float's ascii_number.h and verification of its
natural-language specification.

Machine integers are modelled as Nat with explicit reduction modulo 2^64
exactly where the C code's uint64_t arithmetic can wrap.  Input byte ranges
are modelled as List Nat (byte values); raw pointers into the range are
modelled as indices, so a span is a start index plus a length and lastmatch
is the index of the first unconsumed byte.
-/

set_option maxHeartbeats 4000000

namespace FastFloat

/-- Modulus of the C type uint64_t. -/
def U64 : Nat := 18446744073709551616

/-- Wrapping uint64_t addition. -/
def wadd (a b : Nat) : Nat := (a + b) % U64

/-- Wrapping uint64_t subtraction (two's complement). -/
def wsub (a b : Nat) : Nat := (U64 + a - b) % U64

/-- Source is_integer: c is at least ASCII zero and at most ASCII nine. -/
def is_integer (c : Nat) : Bool := decide (48 ≤ c ∧ c ≤ 57)

/-- Source byteswap: reverses the byte order of a 64-bit word. -/
def byteswap (val : Nat) : Nat :=
  (val &&& 0xFF00000000000000) >>> 56
    ||| (val &&& 0x00FF000000000000) >>> 40
    ||| (val &&& 0x0000FF0000000000) >>> 24
    ||| (val &&& 0x000000FF00000000) >>> 8
    ||| ((val &&& 0x00000000FF000000) <<< 8) % U64
    ||| ((val &&& 0x0000000000FF0000) <<< 24) % U64
    ||| ((val &&& 0x000000000000FF00) <<< 40) % U64
    ||| ((val &&& 0x00000000000000FF) <<< 56) % U64

/-- Runtime path of source read_u64: memcpy into a u64.  On a little-endian
host memcpy directly yields the word whose lane k is chars[k]; on a big-endian
host the code byteswaps the word as loaded, producing the same value.  We
take that canonical little-endian word as the definition. -/
def read_u64 (chars : List Nat) : Nat :=
  chars.getD 0 0 + chars.getD 1 0 * 2 ^ 8 + chars.getD 2 0 * 2 ^ 16 +
    chars.getD 3 0 * 2 ^ 24 + chars.getD 4 0 * 2 ^ 32 + chars.getD 5 0 * 2 ^ 40 +
    chars.getD 6 0 * 2 ^ 48 + chars.getD 7 0 * 2 ^ 56

/-- Value of the C expression uint64_t(c) where c is a char holding byte b and
char is signed, as it is on the mainstream targets: bytes at or above 128 are
negative chars and sign-extend when widened. -/
def char_to_u64 (b : Nat) : Nat := if b < 128 then b else U64 - 256 + b

/-- Constant-evaluated path of source read_u64: the byte-by-byte loop
val |= uint64_t(current char) shifted left by 8 times the byte index. -/
def read_u64_cx (chars : List Nat) : Nat :=
  (List.range 8).foldl (fun val i => val ||| (char_to_u64 (chars.getD i 0) <<< (8 * i)) % U64) 0

/-- Source parse_eight_digits_unrolled on a 64-bit word (credit aqrit). -/
def parse_eight_digits_unrolled (val : Nat) : Nat :=
  let mask := 0x000000FF000000FF
  let mul1 := 0x000F424000000064
  let mul2 := 0x0000271000000001
  let v1 := wsub val 0x3030303030303030
  let v2 := wadd (v1 * 10 % U64) (v1 >>> 8)
  let v3 := (wadd ((v2 &&& mask) * mul1 % U64) ((v2 >>> 16 &&& mask) * mul2 % U64)) >>> 32
  v3 % 2 ^ 32

/-- Source is_made_of_eight_digits_fast on a 64-bit word (credit aqrit). -/
def is_made_of_eight_digits_fast (val : Nat) : Bool :=
  decide ((wadd val 0x4646464646464646 ||| wsub val 0x3030303030303030) &&&
    0x8080808080808080 = 0)

/-- Modelled from the spec: the format bit flags (allow fixed, allow
scientific), from chars_format in the missing float_common.h. -/
structure chars_format where
  fixed : Bool
  scientific : Bool
deriving DecidableEq

/-- Modelled from the spec: the grammar rule selector (standard or strict
interchange), from parse_rules in the missing float_common.h. -/
inductive parse_rules where
  | std_rules : parse_rules
  | json_rules : parse_rules
deriving DecidableEq

/-- Modelled from the spec: per-call immutable configuration, from
parse_options in the missing float_common.h. -/
structure parse_options where
  format : chars_format
  rules : parse_rules
  parse_ints : Bool
  decimal_point : Nat
deriving DecidableEq

/-- Source byte_span, a span of const char: modelled as a start index plus a
length into the input byte list. -/
structure span where
  ptr : Nat := 0
  len : Nat := 0
deriving DecidableEq

/-- Source parsed_number_string with its default field values. -/
structure parsed_number_string where
  exponent : Int := 0
  mantissa : Nat := 0
  lastmatch : Option Nat := none
  negative : Bool := false
  valid : Bool := false
  is_64bit_int : Bool := false
  too_many_digits : Bool := false
  integer : span := {}
  fraction : span := {}
deriving DecidableEq

/-- Result of the scan together with the explicit exponent value (exp_number
in the source), exposed so that the correction pass can be specified. -/
structure scan_ext where
  answer : parsed_number_string
  exp_num : Int := 0
deriving DecidableEq

/-- The integer-digit loop (source lines 139-145): i = 10 * i + digit with
uint64_t wraparound; returns the final accumulator and the count of bytes
consumed. -/
def loop_digits : List Nat → Nat → Nat × Nat
  | [], i => (i, 0)
  | c :: cs, i =>
    if is_integer c then
      let r := loop_digits cs ((10 * i + (c - 48)) % U64)
      (r.1, r.2 + 1)
    else (i, 0)

/-- The eight-at-a-time fraction fast path (source lines 156-159); fuel bounds
the recursion and is instantiated with the remaining length, an upper bound on
the bytes the loop can consume. -/
def loop_chunks : Nat → List Nat → Nat → Nat × Nat
  | 0, _, i => (i, 0)
  | fuel + 1, l, i =>
    if 8 ≤ l.length ∧ is_made_of_eight_digits_fast (read_u64 l) = true then
      let r := loop_chunks fuel (l.drop 8)
        ((i * 100000000 + parse_eight_digits_unrolled (read_u64 l)) % U64)
      (r.1, r.2 + 8)
    else (i, 0)

/-- The explicit-exponent digit loop with its clamp at 0x10000000 (source
lines 192-198). -/
def loop_exp : List Nat → Nat → Nat × Nat
  | [], e => (e, 0)
  | c :: cs, e =>
    if is_integer c then
      let e' := if e < 0x10000000 then 10 * e + (c - 48) else e
      let r := loop_exp cs e'
      (r.1, r.2 + 1)
    else (e, 0)

/-- Leading zero and decimal point trimming of the significant digit count,
walking from start_digits to the end of the input (source lines 225-229). -/
def trim_count : List Nat → Nat → Int → Int
  | [], _, dc => dc
  | c :: cs, dp, dc =>
    if c = 48 ∨ c = dp then trim_count cs dp (if c = 48 then dc - 1 else dc) else dc

/-- The correction re-walk (source lines 246-249 and 255-258): i = 10 * i +
digit while i stays under 10^18; the digit that takes i to or past 10^18 is
consumed before the loop stops. -/
def loop_trunc : List Nat → Nat → Nat × Nat
  | [], i => (i, 0)
  | c :: cs, i =>
    if i < 1000000000000000000 then
      let r := loop_trunc cs ((i * 10 + (c - 48)) % U64)
      (r.1, r.2 + 1)
    else (i, 0)

/-- Finalization stage: leading-zero rule, lastmatch and flags, digit-count
threshold and the too_many_digits correction pass (source lines 207-266). -/
def scan_finish (s : List Nat) (opt : parse_options) (ans : parsed_number_string)
    (start_digits end_int p : Nat) (dc : Int) (exponent : Int) (i : Nat)
    (exp_number : Int) : scan_ext :=
  if opt.rules = parse_rules.json_rules ∧ s.getD start_digits 0 = 48 ∧ 2 ≤ dc ∧
      is_integer (s.getD (start_digits + 1) 0) = true then
    { answer := ans, exp_num := exp_number }
  else
    let is64 := decide (p = end_int)
    let ans1 := { ans with lastmatch := some p, valid := true, is_64bit_int := is64 }
    if 19 < dc then
      let dc2 := trim_count (s.drop start_digits) opt.decimal_point dc
      let tmd : Bool :=
        if opt.rules = parse_rules.json_rules ∧ opt.parse_ints = true ∧ is64 = true then
          decide (20 < dc2) || decide (i < 10000000000000000000)
        else decide (19 < dc2)
      if tmd = true then
        let tr1 := loop_trunc ((s.drop ans1.integer.ptr).take ans1.integer.len) 0
        if 1000000000000000000 ≤ tr1.1 then
          { answer := { ans1 with
                        is_64bit_int := false, too_many_digits := true,
                        exponent := (end_int : Int) - ((ans1.integer.ptr : Int) + tr1.2) + exp_number,
                        mantissa := tr1.1 },
            exp_num := exp_number }
        else
          let tr2 := loop_trunc ((s.drop ans1.fraction.ptr).take ans1.fraction.len) tr1.1
          { answer := { ans1 with
                        is_64bit_int := false, too_many_digits := true,
                        exponent := -(tr2.2 : Int) + exp_number,
                        mantissa := tr2.1 },
            exp_num := exp_number }
      else
        { answer := { ans1 with exponent := exponent, mantissa := i }, exp_num := exp_number }
    else
      { answer := { ans1 with exponent := exponent, mantissa := i }, exp_num := exp_number }

/-- Exponent-marker stage (source lines 173-205). -/
def scan_exp (s : List Nat) (opt : parse_options) (ans : parsed_number_string)
    (start_digits end_int p : Nat) (dc : Int) (exponent : Int) (i : Nat) : scan_ext :=
  if opt.format.scientific = true ∧ p < s.length ∧ (s.getD p 0 = 101 ∨ s.getD p 0 = 69) then
    let location_of_e := p
    let p1 := p + 1
    let sk : Bool × Nat :=
      if p1 < s.length ∧ s.getD p1 0 = 45 then (true, p1 + 1)
      else if p1 < s.length ∧ s.getD p1 0 = 43 then (false, p1 + 1)
      else (false, p1)
    let neg_exp := sk.1
    let p2 := sk.2
    if s.length ≤ p2 ∨ is_integer (s.getD p2 0) = false then
      if opt.format.fixed = false then { answer := ans }
      else scan_finish s opt ans start_digits end_int location_of_e dc exponent i 0
    else
      let ex := loop_exp (s.drop p2) 0
      let exp_number : Int := if neg_exp then -(ex.1 : Int) else (ex.1 : Int)
      scan_finish s opt ans start_digits end_int (p2 + ex.2) dc (exponent + exp_number) i exp_number
  else
    if opt.format.scientific = true ∧ opt.format.fixed = false then { answer := ans }
    else scan_finish s opt ans start_digits end_int p dc exponent i 0

/-- Digit scanning stage: integer digits, optional fraction with the SWAR fast
path, then the total-digit-count check (source lines 135-172). -/
def scan_digits (s : List Nat) (opt : parse_options) (ans0 : parsed_number_string)
    (p0 : Nat) : scan_ext :=
  let idig := loop_digits (s.drop p0) 0
  let i1 := idig.1
  let n1 := idig.2
  let end_int := p0 + n1
  let ans1 := { ans0 with integer := { ptr := p0, len := n1 } }
  let has_dp := end_int < s.length ∧ s.getD end_int 0 = opt.decimal_point
  if has_dp then
    let before := end_int + 1
    let ch := loop_chunks (s.drop before).length (s.drop before) i1
    let sd := loop_digits (s.drop (before + ch.2)) ch.1
    let pf := before + ch.2 + sd.2
    let ans2 := { ans1 with fraction := { ptr := before, len := ch.2 + sd.2 } }
    let dc : Int := (n1 : Int) + ((ch.2 + sd.2 : Nat) : Int)
    if dc = 0 ∨ (opt.rules = parse_rules.json_rules ∧ dc = 1) then
      { answer := ans2 }
    else
      scan_exp s opt ans2 p0 end_int pf dc ((before : Int) - (pf : Int)) sd.1
  else
    if (n1 : Int) = 0 then
      { answer := ans1 }
    else
      scan_exp s opt ans1 p0 end_int end_int (n1 : Int) 0 i1

/-- Source parse_number_string (the scan), producing the extended result.  The
source requires a nonempty range; an empty list yields the all-default invalid
answer here. -/
def parse_number_ext (s : List Nat) (opt : parse_options) : scan_ext :=
  match s with
  | [] => { answer := {} }
  | c0 :: rest =>
    let negative := decide (c0 = 45)
    let ans0 : parsed_number_string := { negative := negative }
    if c0 = 45 then
      match rest with
      | [] => { answer := ans0 }
      | c1 :: _ =>
        if is_integer c1 = false ∧
            (opt.rules = parse_rules.json_rules ∨ c1 ≠ opt.decimal_point) then
          { answer := ans0 }
        else scan_digits s opt ans0 1
    else scan_digits s opt ans0 0

/-- The scan as the caller sees it. -/
def parse_number_string (s : List Nat) (opt : parse_options) : parsed_number_string :=
  (parse_number_ext s opt).answer

/-- Positional decimal value of a run of ASCII digit bytes, starting from a
seed accumulator; no wraparound.  This is the specification-side meaning of a
digit span. -/
def digitsValFrom (i : Nat) (l : List Nat) : Nat :=
  l.foldl (fun a c => 10 * a + (c - 48)) i

/-- Positional decimal value of a run of ASCII digit bytes. -/
def digitsVal (l : List Nat) : Nat := digitsValFrom 0 l

/-- The digit accumulation with uint64_t wraparound at every step, as the
scanner's integer and fraction loops perform it. -/
def accDigits (i : Nat) (l : List Nat) : Nat :=
  l.foldl (fun a c => (10 * a + (c - 48)) % U64) i

/-- Specification-side re-walk of a digit run for the correction pass: consume
digits while the running value is below 10^18; the digit that takes the value
to or past 10^18 is consumed, then the walk stops.  Returns the value and the
count of digits consumed.  No wraparound is needed: the value stays below
10^19. -/
def rederive : List Nat → Nat → Nat × Nat
  | [], i => (i, 0)
  | c :: cs, i =>
    if i < 1000000000000000000 then
      let r := rederive cs (i * 10 + (c - 48))
      (r.1, r.2 + 1)
    else (i, 0)

/-- Fields that no rejection path of the scanner ever writes. -/
def pristine (a : parsed_number_string) : Prop :=
  a.lastmatch = none ∧ a.mantissa = 0 ∧ a.exponent = 0 ∧ a.is_64bit_int = false ∧
    a.too_many_digits = false ∧ a.valid = false

/-- Shape of the result fields written by the too_many_digits correction pass:
the mantissa is re-derived from the recorded integer span, continuing into the
fraction span when the integer span alone stays below 10^18, and the exponent
counts the unconsumed integer digits (or minus the consumed fraction digits)
offset by the explicit exponent. -/
def correction_shape (s : List Nat) (e : scan_ext) : Prop :=
  let intB := (s.drop e.answer.integer.ptr).take e.answer.integer.len
  let frB := (s.drop e.answer.fraction.ptr).take e.answer.fraction.len
  let t1 := loop_trunc intB 0
  if 1000000000000000000 ≤ t1.1 then
    e.answer.mantissa = t1.1 ∧
      e.answer.exponent = (e.answer.integer.len : Int) - (t1.2 : Int) + e.exp_num
  else
    e.answer.mantissa = (loop_trunc frB t1.1).1 ∧
      e.answer.exponent = -((loop_trunc frB t1.1).2 : Int) + e.exp_num

/-- Shape of the bytes after an exponent marker when no digit follows the
marker and its optional sign. -/
def no_exp_digit (rest : List Nat) : Prop :=
  let rest' := match rest with
    | c :: r => if c = 45 ∨ c = 43 then r else rest
    | [] => rest
  rest' = [] ∨ is_integer (rest'.headD 0) = false

end FastFloat

namespace FastFloat

/-! ### Bit-manipulation helper lemmas -/

theorem or_eq_zero_iff {x y : Nat} : x ||| y = 0 ↔ x = 0 ∧ y = 0 := by
  constructor
  · intro h
    have hb : ∀ i, Nat.testBit (x ||| y) i = false := by
      intro i; rw [h]; exact Nat.zero_testBit i
    constructor
    · apply Nat.eq_of_testBit_eq
      intro i
      have hi := hb i
      rw [Nat.testBit_or] at hi
      rcases Bool.or_eq_false_iff.mp hi with ⟨h1, _⟩
      rw [h1, Nat.zero_testBit]
    · apply Nat.eq_of_testBit_eq
      intro i
      have hi := hb i
      rw [Nat.testBit_or] at hi
      rcases Bool.or_eq_false_iff.mp hi with ⟨_, h2⟩
      rw [h2, Nat.zero_testBit]
  · rintro ⟨rfl, rfl⟩; rfl

theorem and_shifted (X m k : Nat) : X &&& (m <<< k) = ((X >>> k) &&& m) <<< k := by
  apply Nat.eq_of_testBit_eq
  intro i
  rw [Nat.testBit_land, Nat.testBit_shiftLeft, Nat.testBit_shiftLeft]
  by_cases h : k ≤ i
  · have hd : decide (i ≥ k) = true := by simp [ge_iff_le, h]
    rw [hd, Nat.testBit_land, Nat.testBit_shiftRight]
    have hik : k + (i - k) = i := by omega
    rw [hik]
    simp
  · have hd : decide (i ≥ k) = false := by simp [ge_iff_le]; omega
    rw [hd]
    simp

theorem and_single_bit (X k : Nat) : X &&& (1 <<< k) = (X / 2 ^ k % 2) <<< k := by
  rw [and_shifted, Nat.and_one_is_mod, Nat.shiftRight_eq_div_pow]

theorem shiftLeft_eq_zero_iff {x k : Nat} : x <<< k = 0 ↔ x = 0 := by
  rw [Nat.shiftLeft_eq, Nat.mul_eq_zero]
  constructor
  · rintro (h | h)
    · exact h
    · exact absurd h (Nat.pos_iff_ne_zero.mp (Nat.pos_pow_of_pos k (by norm_num)))
  · intro h; exact Or.inl h

theorem land80_eq_zero_iff (X : Nat) :
    X &&& 0x8080808080808080 = 0 ↔
      (X / 2 ^ 7 % 2 = 0 ∧ X / 2 ^ 15 % 2 = 0 ∧ X / 2 ^ 23 % 2 = 0 ∧ X / 2 ^ 31 % 2 = 0 ∧
       X / 2 ^ 39 % 2 = 0 ∧ X / 2 ^ 47 % 2 = 0 ∧ X / 2 ^ 55 % 2 = 0 ∧ X / 2 ^ 63 % 2 = 0) := by
  have hm : (0x8080808080808080 : Nat) =
      (1 <<< 7) ||| ((1 <<< 15) ||| ((1 <<< 23) ||| ((1 <<< 31) |||
        ((1 <<< 39) ||| ((1 <<< 47) ||| ((1 <<< 55) ||| (1 <<< 63))))))) := by decide
  rw [hm]
  repeat rw [Nat.and_or_distrib_left]
  repeat rw [and_single_bit]
  repeat rw [or_eq_zero_iff]
  repeat rw [shiftLeft_eq_zero_iff]

theorem landFF (X : Nat) :
    X &&& 0x000000FF000000FF = X % 2 ^ 8 + X / 2 ^ 32 % 2 ^ 8 * 2 ^ 32 := by
  have hm : (0x000000FF000000FF : Nat) = (255 <<< 32) ||| 255 := by decide
  rw [hm, Nat.and_or_distrib_left, and_shifted]
  have h255 : (255 : Nat) = 2 ^ 8 - 1 := by norm_num
  rw [h255, Nat.and_pow_two_sub_one_eq_mod, Nat.and_pow_two_sub_one_eq_mod,
    Nat.shiftRight_eq_div_pow, Nat.shiftLeft_eq]
  rw [Nat.mul_comm (X / 2 ^ 32 % 2 ^ 8) (2 ^ 32),
    ← Nat.mul_add_lt_is_or (show X % 2 ^ 8 < 2 ^ 32 by omega) (X / 2 ^ 32 % 2 ^ 8)]
  omega

theorem div_mul_add (L H n : Nat) (h : L < 2 ^ n) : (L + H * 2 ^ n) / 2 ^ n = H := by
  rw [Nat.add_mul_div_right _ _ (Nat.pos_pow_of_pos n (by norm_num)),
    Nat.div_eq_of_lt h, Nat.zero_add]

theorem mod_mul_add (L H n : Nat) (h : L < 2 ^ n) : (L + H * 2 ^ n) % 2 ^ n = L := by
  rw [Nat.add_mul_mod_self_right, Nat.mod_eq_of_lt h]

/-! ### The SWAR all-digit test on explicit bytes -/

theorem is_made_bytes (b0 b1 b2 b3 b4 b5 b6 b7 : Nat)
    (h0 : b0 < 256) (h1 : b1 < 256) (h2 : b2 < 256) (h3 : b3 < 256)
    (h4 : b4 < 256) (h5 : b5 < 256) (h6 : b6 < 256) (h7 : b7 < 256) :
    is_made_of_eight_digits_fast
      (b0 + b1 * 2 ^ 8 + b2 * 2 ^ 16 + b3 * 2 ^ 24 + b4 * 2 ^ 32 + b5 * 2 ^ 40 +
        b6 * 2 ^ 48 + b7 * 2 ^ 56) = true ↔
    ((48 ≤ b0 ∧ b0 ≤ 57) ∧ (48 ≤ b1 ∧ b1 ≤ 57) ∧ (48 ≤ b2 ∧ b2 ≤ 57) ∧
     (48 ≤ b3 ∧ b3 ≤ 57) ∧ (48 ≤ b4 ∧ b4 ≤ 57) ∧ (48 ≤ b5 ∧ b5 ≤ 57) ∧
     (48 ≤ b6 ∧ b6 ≤ 57) ∧ (48 ≤ b7 ∧ b7 ≤ 57)) := by
  unfold is_made_of_eight_digits_fast wadd wsub U64
  rw [decide_eq_true_eq, Nat.and_distrib_right, or_eq_zero_iff,
    land80_eq_zero_iff, land80_eq_zero_iff]
  omega


/-! ### The SWAR eight-digit fold on explicit bytes -/

theorem pe_e1 (d0 d1 d2 d3 d4 d5 d6 d7 : Nat)
    (h0 : d0 ≤ 9) (h1 : d1 ≤ 9) (h2 : d2 ≤ 9) (h3 : d3 ≤ 9)
    (h4 : d4 ≤ 9) (h5 : d5 ≤ 9) (h6 : d6 ≤ 9) (h7 : d7 ≤ 9) :
    wsub
      ((d0 + 48) + (d1 + 48) * 2 ^ 8 + (d2 + 48) * 2 ^ 16 + (d3 + 48) * 2 ^ 24 +
        (d4 + 48) * 2 ^ 32 + (d5 + 48) * 2 ^ 40 + (d6 + 48) * 2 ^ 48 + (d7 + 48) * 2 ^ 56)
      0x3030303030303030 =
      d0 + d1 * 2 ^ 8 + d2 * 2 ^ 16 + d3 * 2 ^ 24 + d4 * 2 ^ 32 + d5 * 2 ^ 40 +
        d6 * 2 ^ 48 + d7 * 2 ^ 56 := by
  unfold wsub U64
  omega

theorem pe_e2 (d0 d1 d2 d3 d4 d5 d6 d7 : Nat)
    (h0 : d0 ≤ 9) (h1 : d1 ≤ 9) (h2 : d2 ≤ 9) (h3 : d3 ≤ 9)
    (h4 : d4 ≤ 9) (h5 : d5 ≤ 9) (h6 : d6 ≤ 9) (h7 : d7 ≤ 9) :
    wadd
      ((d0 + d1 * 2 ^ 8 + d2 * 2 ^ 16 + d3 * 2 ^ 24 + d4 * 2 ^ 32 + d5 * 2 ^ 40 +
        d6 * 2 ^ 48 + d7 * 2 ^ 56) * 10 % U64)
      ((d0 + d1 * 2 ^ 8 + d2 * 2 ^ 16 + d3 * 2 ^ 24 + d4 * 2 ^ 32 + d5 * 2 ^ 40 +
        d6 * 2 ^ 48 + d7 * 2 ^ 56) >>> 8) =
      (10 * d0 + d1) + (10 * d1 + d2) * 2 ^ 8 + (10 * d2 + d3) * 2 ^ 16 +
        (10 * d3 + d4) * 2 ^ 24 + (10 * d4 + d5) * 2 ^ 32 + (10 * d5 + d6) * 2 ^ 40 +
        (10 * d6 + d7) * 2 ^ 48 + (10 * d7) * 2 ^ 56 := by
  unfold wadd U64
  rw [Nat.mod_eq_of_lt (show (d0 + d1 * 2 ^ 8 + d2 * 2 ^ 16 + d3 * 2 ^ 24 + d4 * 2 ^ 32 +
      d5 * 2 ^ 40 + d6 * 2 ^ 48 + d7 * 2 ^ 56) * 10 < 18446744073709551616 by omega)]
  rw [Nat.shiftRight_eq_div_pow]
  rw [show d0 + d1 * 2 ^ 8 + d2 * 2 ^ 16 + d3 * 2 ^ 24 + d4 * 2 ^ 32 + d5 * 2 ^ 40 +
      d6 * 2 ^ 48 + d7 * 2 ^ 56 =
      d0 + (d1 + d2 * 2 ^ 8 + d3 * 2 ^ 16 + d4 * 2 ^ 24 + d5 * 2 ^ 32 + d6 * 2 ^ 40 +
        d7 * 2 ^ 48) * 2 ^ 8 from by ring,
    div_mul_add _ _ _ (by omega)]
  rw [Nat.mod_eq_of_lt (by omega)]
  ring

theorem pe_e3 (d0 d1 d2 d3 d4 d5 d6 d7 : Nat)
    (h0 : d0 ≤ 9) (h1 : d1 ≤ 9) (h2 : d2 ≤ 9) (h3 : d3 ≤ 9)
    (h4 : d4 ≤ 9) (h5 : d5 ≤ 9) (h6 : d6 ≤ 9) (h7 : d7 ≤ 9) :
    ((10 * d0 + d1) + (10 * d1 + d2) * 2 ^ 8 + (10 * d2 + d3) * 2 ^ 16 +
        (10 * d3 + d4) * 2 ^ 24 + (10 * d4 + d5) * 2 ^ 32 + (10 * d5 + d6) * 2 ^ 40 +
        (10 * d6 + d7) * 2 ^ 48 + (10 * d7) * 2 ^ 56) &&& 0x000000FF000000FF =
      (10 * d0 + d1) + (10 * d4 + d5) * 2 ^ 32 := by
  rw [landFF]
  have p1 : ((10 * d0 + d1) + (10 * d1 + d2) * 2 ^ 8 + (10 * d2 + d3) * 2 ^ 16 +
      (10 * d3 + d4) * 2 ^ 24 + (10 * d4 + d5) * 2 ^ 32 + (10 * d5 + d6) * 2 ^ 40 +
      (10 * d6 + d7) * 2 ^ 48 + (10 * d7) * 2 ^ 56) % 2 ^ 8 = 10 * d0 + d1 := by
    rw [show (10 * d0 + d1) + (10 * d1 + d2) * 2 ^ 8 + (10 * d2 + d3) * 2 ^ 16 +
        (10 * d3 + d4) * 2 ^ 24 + (10 * d4 + d5) * 2 ^ 32 + (10 * d5 + d6) * 2 ^ 40 +
        (10 * d6 + d7) * 2 ^ 48 + (10 * d7) * 2 ^ 56 =
        (10 * d0 + d1) + ((10 * d1 + d2) + (10 * d2 + d3) * 2 ^ 8 +
          (10 * d3 + d4) * 2 ^ 16 + (10 * d4 + d5) * 2 ^ 24 + (10 * d5 + d6) * 2 ^ 32 +
          (10 * d6 + d7) * 2 ^ 40 + (10 * d7) * 2 ^ 48) * 2 ^ 8 from by ring,
      mod_mul_add _ _ _ (by omega)]
  have p2 : ((10 * d0 + d1) + (10 * d1 + d2) * 2 ^ 8 + (10 * d2 + d3) * 2 ^ 16 +
      (10 * d3 + d4) * 2 ^ 24 + (10 * d4 + d5) * 2 ^ 32 + (10 * d5 + d6) * 2 ^ 40 +
      (10 * d6 + d7) * 2 ^ 48 + (10 * d7) * 2 ^ 56) / 2 ^ 32 % 2 ^ 8 = 10 * d4 + d5 := by
    rw [show (10 * d0 + d1) + (10 * d1 + d2) * 2 ^ 8 + (10 * d2 + d3) * 2 ^ 16 +
        (10 * d3 + d4) * 2 ^ 24 + (10 * d4 + d5) * 2 ^ 32 + (10 * d5 + d6) * 2 ^ 40 +
        (10 * d6 + d7) * 2 ^ 48 + (10 * d7) * 2 ^ 56 =
        ((10 * d0 + d1) + (10 * d1 + d2) * 2 ^ 8 + (10 * d2 + d3) * 2 ^ 16 +
          (10 * d3 + d4) * 2 ^ 24) + ((10 * d4 + d5) + (10 * d5 + d6) * 2 ^ 8 +
          (10 * d6 + d7) * 2 ^ 16 + (10 * d7) * 2 ^ 24) * 2 ^ 32 from by ring,
      div_mul_add _ _ _ (by omega)]
    rw [show (10 * d4 + d5) + (10 * d5 + d6) * 2 ^ 8 + (10 * d6 + d7) * 2 ^ 16 +
        (10 * d7) * 2 ^ 24 =
        (10 * d4 + d5) + ((10 * d5 + d6) + (10 * d6 + d7) * 2 ^ 8 + (10 * d7) * 2 ^ 16) * 2 ^ 8
        from by ring,
      mod_mul_add _ _ _ (by omega)]
  rw [p1, p2]

theorem pe_e4 (d0 d1 d2 d3 d4 d5 d6 d7 : Nat)
    (h0 : d0 ≤ 9) (h1 : d1 ≤ 9) (h2 : d2 ≤ 9) (h3 : d3 ≤ 9)
    (h4 : d4 ≤ 9) (h5 : d5 ≤ 9) (h6 : d6 ≤ 9) (h7 : d7 ≤ 9) :
    ((10 * d0 + d1) + (10 * d1 + d2) * 2 ^ 8 + (10 * d2 + d3) * 2 ^ 16 +
        (10 * d3 + d4) * 2 ^ 24 + (10 * d4 + d5) * 2 ^ 32 + (10 * d5 + d6) * 2 ^ 40 +
        (10 * d6 + d7) * 2 ^ 48 + (10 * d7) * 2 ^ 56) >>> 16 &&& 0x000000FF000000FF =
      (10 * d2 + d3) + (10 * d6 + d7) * 2 ^ 32 := by
  rw [Nat.shiftRight_eq_div_pow]
  rw [show (10 * d0 + d1) + (10 * d1 + d2) * 2 ^ 8 + (10 * d2 + d3) * 2 ^ 16 +
      (10 * d3 + d4) * 2 ^ 24 + (10 * d4 + d5) * 2 ^ 32 + (10 * d5 + d6) * 2 ^ 40 +
      (10 * d6 + d7) * 2 ^ 48 + (10 * d7) * 2 ^ 56 =
      ((10 * d0 + d1) + (10 * d1 + d2) * 2 ^ 8) + ((10 * d2 + d3) +
        (10 * d3 + d4) * 2 ^ 8 + (10 * d4 + d5) * 2 ^ 16 + (10 * d5 + d6) * 2 ^ 24 +
        (10 * d6 + d7) * 2 ^ 32 + (10 * d7) * 2 ^ 40) * 2 ^ 16 from by ring,
    div_mul_add _ _ _ (by omega), landFF]
  have p3 : ((10 * d2 + d3) + (10 * d3 + d4) * 2 ^ 8 + (10 * d4 + d5) * 2 ^ 16 +
      (10 * d5 + d6) * 2 ^ 24 + (10 * d6 + d7) * 2 ^ 32 + (10 * d7) * 2 ^ 40) % 2 ^ 8 =
      10 * d2 + d3 := by
    rw [show (10 * d2 + d3) + (10 * d3 + d4) * 2 ^ 8 + (10 * d4 + d5) * 2 ^ 16 +
        (10 * d5 + d6) * 2 ^ 24 + (10 * d6 + d7) * 2 ^ 32 + (10 * d7) * 2 ^ 40 =
        (10 * d2 + d3) + ((10 * d3 + d4) + (10 * d4 + d5) * 2 ^ 8 +
          (10 * d5 + d6) * 2 ^ 16 + (10 * d6 + d7) * 2 ^ 24 + (10 * d7) * 2 ^ 32) * 2 ^ 8
        from by ring,
      mod_mul_add _ _ _ (by omega)]
  have p4 : ((10 * d2 + d3) + (10 * d3 + d4) * 2 ^ 8 + (10 * d4 + d5) * 2 ^ 16 +
      (10 * d5 + d6) * 2 ^ 24 + (10 * d6 + d7) * 2 ^ 32 + (10 * d7) * 2 ^ 40) / 2 ^ 32 % 2 ^ 8 =
      10 * d6 + d7 := by
    rw [show (10 * d2 + d3) + (10 * d3 + d4) * 2 ^ 8 + (10 * d4 + d5) * 2 ^ 16 +
        (10 * d5 + d6) * 2 ^ 24 + (10 * d6 + d7) * 2 ^ 32 + (10 * d7) * 2 ^ 40 =
        ((10 * d2 + d3) + (10 * d3 + d4) * 2 ^ 8 + (10 * d4 + d5) * 2 ^ 16 +
          (10 * d5 + d6) * 2 ^ 24) + ((10 * d6 + d7) + (10 * d7) * 2 ^ 8) * 2 ^ 32
        from by ring,
      div_mul_add _ _ _ (by omega), mod_mul_add _ _ _ (by omega)]
  rw [p3, p4]

theorem pe_m1 (d0 d1 d4 d5 : Nat)
    (h0 : d0 ≤ 9) (h1 : d1 ≤ 9) (h4 : d4 ≤ 9) (h5 : d5 ≤ 9) :
    ((10 * d0 + d1) + (10 * d4 + d5) * 2 ^ 32) * 0x000F424000000064 % U64 =
      (10 * d0 + d1) * 100 + ((10 * d0 + d1) * 1000000 + (10 * d4 + d5) * 100) * 2 ^ 32 := by
  unfold U64
  omega

theorem pe_m2 (d2 d3 d6 d7 : Nat)
    (h2 : d2 ≤ 9) (h3 : d3 ≤ 9) (h6 : d6 ≤ 9) (h7 : d7 ≤ 9) :
    ((10 * d2 + d3) + (10 * d6 + d7) * 2 ^ 32) * 0x0000271000000001 % U64 =
      (10 * d2 + d3) + ((10 * d2 + d3) * 10000 + (10 * d6 + d7)) * 2 ^ 32 := by
  unfold U64
  omega

theorem pe_m3 (d0 d1 d2 d3 d4 d5 d6 d7 : Nat)
    (h0 : d0 ≤ 9) (h1 : d1 ≤ 9) (h2 : d2 ≤ 9) (h3 : d3 ≤ 9)
    (h4 : d4 ≤ 9) (h5 : d5 ≤ 9) (h6 : d6 ≤ 9) (h7 : d7 ≤ 9) :
    (wadd
      ((10 * d0 + d1) * 100 + ((10 * d0 + d1) * 1000000 + (10 * d4 + d5) * 100) * 2 ^ 32)
      ((10 * d2 + d3) + ((10 * d2 + d3) * 10000 + (10 * d6 + d7)) * 2 ^ 32)) >>> 32 % 2 ^ 32 =
      d0 * 10 ^ 7 + d1 * 10 ^ 6 + d2 * 10 ^ 5 + d3 * 10 ^ 4 +
        d4 * 10 ^ 3 + d5 * 10 ^ 2 + d6 * 10 + d7 := by
  unfold wadd U64
  rw [Nat.shiftRight_eq_div_pow]
  rw [show ((10 * d0 + d1) * 100 + ((10 * d0 + d1) * 1000000 + (10 * d4 + d5) * 100) * 2 ^ 32) +
      ((10 * d2 + d3) + ((10 * d2 + d3) * 10000 + (10 * d6 + d7)) * 2 ^ 32) =
      ((10 * d0 + d1) * 100 + (10 * d2 + d3)) +
        ((10 * d0 + d1) * 1000000 + (10 * d4 + d5) * 100 +
          (10 * d2 + d3) * 10000 + (10 * d6 + d7)) * 2 ^ 32 from by ring]
  rw [Nat.mod_eq_of_lt (show (10 * d0 + d1) * 100 + (10 * d2 + d3) +
      ((10 * d0 + d1) * 1000000 + (10 * d4 + d5) * 100 +
        (10 * d2 + d3) * 10000 + (10 * d6 + d7)) * 2 ^ 32 < 18446744073709551616 by omega)]
  rw [div_mul_add _ _ _ (by omega), Nat.mod_eq_of_lt (by omega)]
  ring

theorem parse_eight_digits_core (d0 d1 d2 d3 d4 d5 d6 d7 : Nat)
    (h0 : d0 ≤ 9) (h1 : d1 ≤ 9) (h2 : d2 ≤ 9) (h3 : d3 ≤ 9)
    (h4 : d4 ≤ 9) (h5 : d5 ≤ 9) (h6 : d6 ≤ 9) (h7 : d7 ≤ 9) :
    parse_eight_digits_unrolled
      ((d0 + 48) + (d1 + 48) * 2 ^ 8 + (d2 + 48) * 2 ^ 16 + (d3 + 48) * 2 ^ 24 +
        (d4 + 48) * 2 ^ 32 + (d5 + 48) * 2 ^ 40 + (d6 + 48) * 2 ^ 48 + (d7 + 48) * 2 ^ 56) =
      d0 * 10 ^ 7 + d1 * 10 ^ 6 + d2 * 10 ^ 5 + d3 * 10 ^ 4 +
        d4 * 10 ^ 3 + d5 * 10 ^ 2 + d6 * 10 + d7 := by
  simp only [parse_eight_digits_unrolled]
  rw [pe_e1 d0 d1 d2 d3 d4 d5 d6 d7 h0 h1 h2 h3 h4 h5 h6 h7,
    pe_e2 d0 d1 d2 d3 d4 d5 d6 d7 h0 h1 h2 h3 h4 h5 h6 h7,
    pe_e3 d0 d1 d2 d3 d4 d5 d6 d7 h0 h1 h2 h3 h4 h5 h6 h7,
    pe_e4 d0 d1 d2 d3 d4 d5 d6 d7 h0 h1 h2 h3 h4 h5 h6 h7,
    pe_m1 d0 d1 d4 d5 h0 h1 h4 h5,
    pe_m2 d2 d3 d6 d7 h2 h3 h6 h7,
    pe_m3 d0 d1 d2 d3 d4 d5 d6 d7 h0 h1 h2 h3 h4 h5 h6 h7]


/-! ### List byte helpers -/

theorem getD_lt_256 (l : List Nat) (h : ∀ c ∈ l, c < 256) (n : Nat) : l.getD n 0 < 256 := by
  induction l generalizing n with
  | nil => simp
  | cons c cs ih =>
    cases n with
    | zero => simpa using h c (by simp)
    | succ m =>
      simp only [List.getD_cons_succ]
      exact ih (fun x hx => h x (by simp [hx])) m

/-- The SWAR all-digit test on a byte list read little-endian. -/
theorem is_made_read (l : List Nat) (hb : ∀ c ∈ l, c < 256) :
    is_made_of_eight_digits_fast (read_u64 l) = true ↔
      (is_integer (l.getD 0 0) = true ∧ is_integer (l.getD 1 0) = true ∧
       is_integer (l.getD 2 0) = true ∧ is_integer (l.getD 3 0) = true ∧
       is_integer (l.getD 4 0) = true ∧ is_integer (l.getD 5 0) = true ∧
       is_integer (l.getD 6 0) = true ∧ is_integer (l.getD 7 0) = true) := by
  unfold read_u64
  rw [is_made_bytes _ _ _ _ _ _ _ _
    (getD_lt_256 l hb 0) (getD_lt_256 l hb 1) (getD_lt_256 l hb 2) (getD_lt_256 l hb 3)
    (getD_lt_256 l hb 4) (getD_lt_256 l hb 5) (getD_lt_256 l hb 6) (getD_lt_256 l hb 7)]
  simp only [is_integer, decide_eq_true_eq]

/-- The SWAR eight-digit fold on digit bytes given directly. -/
theorem parse_eight_digit_bytes (c0 c1 c2 c3 c4 c5 c6 c7 : Nat)
    (h0 : 48 ≤ c0 ∧ c0 ≤ 57) (h1 : 48 ≤ c1 ∧ c1 ≤ 57) (h2 : 48 ≤ c2 ∧ c2 ≤ 57)
    (h3 : 48 ≤ c3 ∧ c3 ≤ 57) (h4 : 48 ≤ c4 ∧ c4 ≤ 57) (h5 : 48 ≤ c5 ∧ c5 ≤ 57)
    (h6 : 48 ≤ c6 ∧ c6 ≤ 57) (h7 : 48 ≤ c7 ∧ c7 ≤ 57) :
    parse_eight_digits_unrolled
      (c0 + c1 * 2 ^ 8 + c2 * 2 ^ 16 + c3 * 2 ^ 24 + c4 * 2 ^ 32 + c5 * 2 ^ 40 +
        c6 * 2 ^ 48 + c7 * 2 ^ 56) =
      (c0 - 48) * 10 ^ 7 + (c1 - 48) * 10 ^ 6 + (c2 - 48) * 10 ^ 5 + (c3 - 48) * 10 ^ 4 +
        (c4 - 48) * 10 ^ 3 + (c5 - 48) * 10 ^ 2 + (c6 - 48) * 10 + (c7 - 48) := by
  have hc := parse_eight_digits_core (c0 - 48) (c1 - 48) (c2 - 48) (c3 - 48)
    (c4 - 48) (c5 - 48) (c6 - 48) (c7 - 48)
    (by omega) (by omega) (by omega) (by omega) (by omega) (by omega) (by omega) (by omega)
  rw [Nat.sub_add_cancel h0.1, Nat.sub_add_cancel h1.1, Nat.sub_add_cancel h2.1,
    Nat.sub_add_cancel h3.1, Nat.sub_add_cancel h4.1, Nat.sub_add_cancel h5.1,
    Nat.sub_add_cancel h6.1, Nat.sub_add_cancel h7.1] at hc
  exact hc

/-! ### Digit value arithmetic -/

theorem digitsValFrom_cons (i c : Nat) (l : List Nat) :
    digitsValFrom i (c :: l) = digitsValFrom (10 * i + (c - 48)) l := rfl

theorem accDigits_cons (i c : Nat) (l : List Nat) :
    accDigits i (c :: l) = accDigits ((10 * i + (c - 48)) % U64) l := rfl

theorem digitsVal_cons (c : Nat) (cs : List Nat) :
    digitsVal (c :: cs) = digitsValFrom (c - 48) cs := by
  show digitsValFrom 0 (c :: cs) = _
  rw [digitsValFrom_cons]
  norm_num

theorem digitsValFrom_eq (i : Nat) (l : List Nat) :
    digitsValFrom i l = i * 10 ^ l.length + digitsVal l := by
  induction l generalizing i with
  | nil => simp [digitsValFrom, digitsVal]
  | cons c cs ih =>
    rw [digitsValFrom_cons, ih, digitsVal_cons, ih]
    simp only [List.length_cons]
    ring

theorem mod_absorb (a k b : Nat) : (a % U64 * k + b) % U64 = (a * k + b) % U64 := by
  rw [Nat.add_mod (a % U64 * k) b, Nat.mul_mod (a % U64) k,
    Nat.mod_mod_of_dvd a dvd_rfl, ← Nat.mul_mod a k, ← Nat.add_mod (a * k) b]

theorem accDigits_eq (i : Nat) (l : List Nat) (hi : i < U64) :
    accDigits i l = (i * 10 ^ l.length + digitsVal l) % U64 := by
  induction l generalizing i with
  | nil => simp [accDigits, digitsVal, digitsValFrom, Nat.mod_eq_of_lt hi]
  | cons c cs ih =>
    rw [accDigits_cons, ih _ (Nat.mod_lt _ (by unfold U64; norm_num)),
      digitsVal_cons, digitsValFrom_eq (c - 48) cs, mod_absorb]
    congr 1
    simp only [List.length_cons]
    ring

theorem digitsValFrom_lt (i : Nat) (l : List Nat) (hd : ∀ c ∈ l, is_integer c = true) :
    digitsValFrom i l < (i + 1) * 10 ^ l.length := by
  induction l generalizing i with
  | nil => simp [digitsValFrom]
  | cons c cs ih =>
    rw [digitsValFrom_cons]
    have hc : c ≤ 57 := by
      have := hd c (by simp)
      simp [is_integer] at this
      omega
    have := ih (10 * i + (c - 48)) (fun x hx => hd x (by simp [hx]))
    calc digitsValFrom (10 * i + (c - 48)) cs
        < (10 * i + (c - 48) + 1) * 10 ^ cs.length := this
      _ ≤ (i + 1) * 10 ^ (c :: cs).length := by
          simp only [List.length_cons, pow_succ]
          have he : 10 * i + (c - 48) + 1 ≤ (i + 1) * 10 := by omega
          calc (10 * i + (c - 48) + 1) * 10 ^ cs.length
              ≤ ((i + 1) * 10) * 10 ^ cs.length := Nat.mul_le_mul_right _ he
            _ = (i + 1) * (10 ^ cs.length * 10) := by ring

theorem digitsVal_lt (l : List Nat) (hd : ∀ c ∈ l, is_integer c = true) :
    digitsVal l < 10 ^ l.length := by
  have := digitsValFrom_lt 0 l hd
  simpa [digitsVal] using this


/-! ### Loop lemmas -/

theorem loop_digits_le (l : List Nat) (i : Nat) : (loop_digits l i).2 ≤ l.length := by
  induction l generalizing i with
  | nil => simp [loop_digits]
  | cons c cs ih =>
    simp only [loop_digits]
    split
    · have := ih ((10 * i + (c - 48)) % U64)
      simp only [List.length_cons]
      omega
    · simp

theorem loop_exp_le (l : List Nat) (e : Nat) : (loop_exp l e).2 ≤ l.length := by
  induction l generalizing e with
  | nil => simp [loop_exp]
  | cons c cs ih =>
    simp only [loop_exp]
    split
    · have := ih (if e < 0x10000000 then 10 * e + (c - 48) else e)
      simp only [List.length_cons]
      omega
    · simp

theorem loop_trunc_le (l : List Nat) (i : Nat) : (loop_trunc l i).2 ≤ l.length := by
  induction l generalizing i with
  | nil => simp [loop_trunc]
  | cons c cs ih =>
    simp only [loop_trunc]
    split
    · have := ih ((i * 10 + (c - 48)) % U64)
      simp only [List.length_cons]
      omega
    · simp

theorem loop_chunks_le (fuel : Nat) (l : List Nat) (i : Nat) :
    (loop_chunks fuel l i).2 ≤ l.length := by
  induction fuel generalizing l i with
  | zero => simp [loop_chunks]
  | succ f ih =>
    simp only [loop_chunks]
    split
    · rename_i h
      have := ih (l.drop 8) ((i * 100000000 + parse_eight_digits_unrolled (read_u64 l)) % U64)
      simp only [List.length_drop] at this
      omega
    · simp

/-- A maximal digit run: the digit loop on ds followed by a stopper consumes
exactly ds and accumulates its wrapped value. -/
theorem loop_digits_run (ds t : List Nat) (i : Nat)
    (hds : ∀ c ∈ ds, is_integer c = true)
    (ht : t = [] ∨ is_integer (t.headD 0) = false) :
    loop_digits (ds ++ t) i = (accDigits i ds, ds.length) := by
  induction ds generalizing i with
  | nil =>
    simp only [List.nil_append, List.length_nil]
    show loop_digits t i = (accDigits i [], 0)
    rcases ht with rfl | hh
    · rfl
    · cases t with
      | nil => rfl
      | cons c cs =>
        simp only [List.headD_eq_head?_getD, List.head?_cons, Option.getD_some] at hh
        simp [loop_digits, hh, accDigits]
  | cons c cs ih =>
    have hc : is_integer c = true := hds c (by simp)
    simp only [List.cons_append, loop_digits, hc, if_true, accDigits_cons, List.append_eq]
    rw [ih ((10 * i + (c - 48)) % U64) (fun x hx => hds x (by simp [hx]))]
    simp

/-- getD at the junction of an append reads the head of the second list. -/
theorem getD_append_len (ds t : List Nat) : (ds ++ t).getD ds.length 0 = t.headD 0 := by
  induction ds with
  | nil =>
    cases t with
    | nil => rfl
    | cons c cs => simp
  | cons c cs ih => simpa using ih

theorem getD_append_lt (ds t : List Nat) (k : Nat) (h : k < ds.length) :
    (ds ++ t).getD k 0 = ds.getD k 0 := by
  induction ds generalizing k with
  | nil => simp at h
  | cons c cs ih =>
    cases k with
    | zero => rfl
    | succ m =>
      simp only [List.cons_append, List.getD_cons_succ]
      exact ih m (by simpa using h)

/-- Value of an eight-digit list. -/
theorem digitsVal_eight (c0 c1 c2 c3 c4 c5 c6 c7 : Nat) :
    digitsVal [c0, c1, c2, c3, c4, c5, c6, c7] =
      (c0 - 48) * 10 ^ 7 + (c1 - 48) * 10 ^ 6 + (c2 - 48) * 10 ^ 5 + (c3 - 48) * 10 ^ 4 +
        (c4 - 48) * 10 ^ 3 + (c5 - 48) * 10 ^ 2 + (c6 - 48) * 10 + (c7 - 48) := by
  simp [digitsVal, digitsValFrom]
  ring

/-- The SWAR test is false as soon as one of the eight lanes is not a digit. -/
theorem is_made_false_at (l : List Nat) (hb : ∀ c ∈ l, c < 256) (k : Nat) (hk : k < 8)
    (hnd : is_integer (l.getD k 0) = false) :
    is_made_of_eight_digits_fast (read_u64 l) = false := by
  by_contra h
  rw [Bool.not_eq_false, is_made_read l hb] at h
  obtain ⟨g0, g1, g2, g3, g4, g5, g6, g7⟩ := h
  interval_cases k
  · rw [g0] at hnd; exact Bool.noConfusion hnd
  · rw [g1] at hnd; exact Bool.noConfusion hnd
  · rw [g2] at hnd; exact Bool.noConfusion hnd
  · rw [g3] at hnd; exact Bool.noConfusion hnd
  · rw [g4] at hnd; exact Bool.noConfusion hnd
  · rw [g5] at hnd; exact Bool.noConfusion hnd
  · rw [g6] at hnd; exact Bool.noConfusion hnd
  · rw [g7] at hnd; exact Bool.noConfusion hnd

theorem drop_add_eight (c0 c1 c2 c3 c4 c5 c6 c7 : Nat) (l : List Nat) (n : Nat) :
    (c0 :: c1 :: c2 :: c3 :: c4 :: c5 :: c6 :: c7 :: l).drop (n + 8) = l.drop n := rfl

/-- The fraction scan: the chunked fast path followed by the digit loop
together consume exactly a maximal digit run and accumulate its wrapped
value. -/
theorem frac_scan (ds t : List Nat) (i fuel : Nat)
    (hi : i < U64)
    (hfuel : (ds ++ t).length ≤ fuel)
    (hds : ∀ c ∈ ds, is_integer c = true)
    (hbs : ∀ c ∈ ds ++ t, c < 256)
    (ht : t = [] ∨ is_integer (t.headD 0) = false) :
    (loop_chunks fuel (ds ++ t) i).2 +
        (loop_digits ((ds ++ t).drop (loop_chunks fuel (ds ++ t) i).2)
          (loop_chunks fuel (ds ++ t) i).1).2 = ds.length ∧
      (loop_digits ((ds ++ t).drop (loop_chunks fuel (ds ++ t) i).2)
          (loop_chunks fuel (ds ++ t) i).1).1 = accDigits i ds := by
  induction fuel generalizing ds t i with
  | zero =>
    have hds0 : ds = [] ∧ t = [] := by
      constructor <;> [skip; skip] <;>
        · rw [← List.length_eq_zero]
          simp only [List.length_append] at hfuel
          omega
    obtain ⟨rfl, rfl⟩ := hds0
    simp [loop_chunks, loop_digits, accDigits]
  | succ f ih =>
    by_cases h8 : 8 ≤ ds.length
    · rcases ds with _ | ⟨c0, _ | ⟨c1, _ | ⟨c2, _ | ⟨c3, _ | ⟨c4, _ | ⟨c5, _ | ⟨c6, _ | ⟨c7, ds'⟩⟩⟩⟩⟩⟩⟩⟩ <;>
        simp only [List.length_nil, List.length_cons] at h8 <;> try omega
      -- ds = c0 :: c1 :: ... :: c7 :: ds'
      have hd0 : is_integer c0 = true := hds c0 (by simp)
      have hd1 : is_integer c1 = true := hds c1 (by simp)
      have hd2 : is_integer c2 = true := hds c2 (by simp)
      have hd3 : is_integer c3 = true := hds c3 (by simp)
      have hd4 : is_integer c4 = true := hds c4 (by simp)
      have hd5 : is_integer c5 = true := hds c5 (by simp)
      have hd6 : is_integer c6 = true := hds c6 (by simp)
      have hd7 : is_integer c7 = true := hds c7 (by simp)
      have hlen : 8 ≤ ((c0 :: c1 :: c2 :: c3 :: c4 :: c5 :: c6 :: c7 :: ds') ++ t).length := by
        simp [List.length_append]
      have hmade : is_made_of_eight_digits_fast
          (read_u64 ((c0 :: c1 :: c2 :: c3 :: c4 :: c5 :: c6 :: c7 :: ds') ++ t)) = true := by
        rw [is_made_read _ hbs]
        simp only [List.cons_append, List.getD_cons_zero, List.getD_cons_succ]
        exact ⟨hd0, hd1, hd2, hd3, hd4, hd5, hd6, hd7⟩
      have hstep : loop_chunks (f + 1) ((c0 :: c1 :: c2 :: c3 :: c4 :: c5 :: c6 :: c7 :: ds') ++ t) i =
          ((loop_chunks f (ds' ++ t)
              ((i * 100000000 + parse_eight_digits_unrolled
                (read_u64 ((c0 :: c1 :: c2 :: c3 :: c4 :: c5 :: c6 :: c7 :: ds') ++ t))) % U64)).1,
           (loop_chunks f (ds' ++ t)
              ((i * 100000000 + parse_eight_digits_unrolled
                (read_u64 ((c0 :: c1 :: c2 :: c3 :: c4 :: c5 :: c6 :: c7 :: ds') ++ t))) % U64)).2 + 8) := by
        simp only [loop_chunks, hlen, hmade, and_self, if_true]
        simp [List.cons_append]
      have hread : read_u64 ((c0 :: c1 :: c2 :: c3 :: c4 :: c5 :: c6 :: c7 :: ds') ++ t) =
          c0 + c1 * 2 ^ 8 + c2 * 2 ^ 16 + c3 * 2 ^ 24 + c4 * 2 ^ 32 + c5 * 2 ^ 40 +
            c6 * 2 ^ 48 + c7 * 2 ^ 56 := by
        simp [read_u64]
      have hv8 : parse_eight_digits_unrolled
          (read_u64 ((c0 :: c1 :: c2 :: c3 :: c4 :: c5 :: c6 :: c7 :: ds') ++ t)) =
          digitsVal [c0, c1, c2, c3, c4, c5, c6, c7] := by
        rw [hread, digitsVal_eight, parse_eight_digit_bytes c0 c1 c2 c3 c4 c5 c6 c7
          (by revert hd0; simp [is_integer]) (by revert hd1; simp [is_integer])
          (by revert hd2; simp [is_integer]) (by revert hd3; simp [is_integer])
          (by revert hd4; simp [is_integer]) (by revert hd5; simp [is_integer])
          (by revert hd6; simp [is_integer]) (by revert hd7; simp [is_integer])]
      have hi' : (i * 100000000 + digitsVal [c0, c1, c2, c3, c4, c5, c6, c7]) % U64 =
          accDigits i [c0, c1, c2, c3, c4, c5, c6, c7] := by
        rw [accDigits_eq i _ hi]
        norm_num
      have hseed : accDigits i [c0, c1, c2, c3, c4, c5, c6, c7] < U64 := by
        rw [← hi']
        exact Nat.mod_lt _ (by unfold U64; norm_num)
      have hfuel' : (ds' ++ t).length ≤ f := by
        simp only [List.length_append, List.length_cons] at hfuel ⊢
        omega
      have hds' : ∀ c ∈ ds', is_integer c = true := fun x hx => hds x (by simp [hx])
      have hbs' : ∀ c ∈ ds' ++ t, c < 256 := by
        intro x hx
        apply hbs
        simp only [List.mem_append, List.mem_cons] at hx ⊢
        tauto
      have hrec := ih ds' t (accDigits i [c0, c1, c2, c3, c4, c5, c6, c7])
        hseed hfuel' hds' hbs' ht
      rw [hstep, hv8, hi']
      have hdrop : ∀ n : Nat,
          ((c0 :: c1 :: c2 :: c3 :: c4 :: c5 :: c6 :: c7 :: ds') ++ t).drop (n + 8) =
            (ds' ++ t).drop n := by
        intro n
        simp only [List.cons_append]
        exact drop_add_eight c0 c1 c2 c3 c4 c5 c6 c7 (ds' ++ t) n
      rw [hdrop]
      have hacc : accDigits i (c0 :: c1 :: c2 :: c3 :: c4 :: c5 :: c6 :: c7 :: ds') =
          accDigits (accDigits i [c0, c1, c2, c3, c4, c5, c6, c7]) ds' := by
        show accDigits i ([c0, c1, c2, c3, c4, c5, c6, c7] ++ ds') = _
        unfold accDigits
        exact List.foldl_append _ _ _ _
      rw [hacc]
      refine ⟨?_, hrec.2⟩
      have := hrec.1
      simp only [List.length_cons]
      omega
    · -- fewer than eight digits remain: the chunk loop does not fire
      have hrun := loop_digits_run ds t i hds ht
      have hchunk : loop_chunks (f + 1) (ds ++ t) i = (i, 0) := by
        simp only [loop_chunks]
        rw [if_neg]
        intro hcond
        rcases ht with rfl | hh
        · simp only [List.append_nil] at hcond
          omega
        · by_cases hlen8 : 8 ≤ (ds ++ t).length
          · have hk : (ds ++ t).getD ds.length 0 = t.headD 0 := getD_append_len ds t
            have hnd : is_integer ((ds ++ t).getD ds.length 0) = false := by
              rw [hk]; exact hh
            have hmf := is_made_false_at (ds ++ t) hbs ds.length (by omega) hnd
            rw [hmf] at hcond
            exact absurd hcond.2 (by simp)
          · omega
      rw [hchunk]
      simp only [List.drop_zero]
      rw [hrun]
      simp


/-! ### Stage lemmas: fields of a rejected scan -/

theorem scan_finish_invalid (s : List Nat) (opt : parse_options) (ans : parsed_number_string)
    (sd ei p : Nat) (dc ex : Int) (i : Nat) (en : Int) (hans : pristine ans) :
    (scan_finish s opt ans sd ei p dc ex i en).answer.valid = false →
      pristine (scan_finish s opt ans sd ei p dc ex i en).answer := by
  intro h
  unfold scan_finish at h ⊢
  dsimp only at h ⊢
  split_ifs at h ⊢ <;> first | exact hans | simp at h

theorem scan_exp_invalid (s : List Nat) (opt : parse_options) (ans : parsed_number_string)
    (sd ei p : Nat) (dc ex : Int) (i : Nat) (hans : pristine ans) :
    (scan_exp s opt ans sd ei p dc ex i).answer.valid = false →
      pristine (scan_exp s opt ans sd ei p dc ex i).answer := by
  intro h
  unfold scan_exp at h ⊢
  dsimp only at h ⊢
  split_ifs at h ⊢ <;>
    first
      | exact hans
      | exact scan_finish_invalid _ _ _ _ _ _ _ _ _ _ hans h

theorem scan_digits_invalid (s : List Nat) (opt : parse_options) (ans0 : parsed_number_string)
    (p0 : Nat) (hans : pristine ans0) :
    (scan_digits s opt ans0 p0).answer.valid = false →
      pristine (scan_digits s opt ans0 p0).answer := by
  intro h
  unfold scan_digits at h ⊢
  dsimp only at h ⊢
  split_ifs at h ⊢ <;>
    first
      | exact hans
      | exact scan_exp_invalid _ _ _ _ _ _ _ _ _ hans h

theorem parse_invalid_fields (s : List Nat) (opt : parse_options) :
    (parse_number_ext s opt).answer.valid = false →
      pristine (parse_number_ext s opt).answer := by
  intro h
  cases s with
  | nil =>
    exact ⟨rfl, rfl, rfl, rfl, rfl, rfl⟩
  | cons c0 rest =>
    cases rest with
    | nil =>
      dsimp only [parse_number_ext] at h ⊢
      split_ifs at h ⊢ <;>
        first
          | exact ⟨rfl, rfl, rfl, rfl, rfl, rfl⟩
          | exact scan_digits_invalid _ _ _ _ ⟨rfl, rfl, rfl, rfl, rfl, rfl⟩ h
    | cons c1 r2 =>
      dsimp only [parse_number_ext] at h ⊢
      split_ifs at h ⊢ <;>
        first
          | exact ⟨rfl, rfl, rfl, rfl, rfl, rfl⟩
          | exact scan_digits_invalid _ _ _ _ ⟨rfl, rfl, rfl, rfl, rfl, rfl⟩ h


/-! ### Stage lemmas: lastmatch of an accepted scan -/

theorem scan_finish_lastmatch (s : List Nat) (opt : parse_options) (ans : parsed_number_string)
    (sd ei p : Nat) (dc ex : Int) (i : Nat) (en : Int) (hva : ans.valid = false) :
    (scan_finish s opt ans sd ei p dc ex i en).answer.valid = true →
      (scan_finish s opt ans sd ei p dc ex i en).answer.lastmatch = some p := by
  intro h
  unfold scan_finish at h ⊢
  dsimp only at h ⊢
  split_ifs at h ⊢ <;> first | (rw [hva] at h; exact Bool.noConfusion h) | rfl

theorem scan_exp_lastmatch (s : List Nat) (opt : parse_options) (ans : parsed_number_string)
    (sd ei p : Nat) (dc ex : Int) (i : Nat) (hva : ans.valid = false)
    (h : (scan_exp s opt ans sd ei p dc ex i).answer.valid = true)
    (hp1 : 1 ≤ p) (hple : p ≤ s.length) :
    ∃ m, (scan_exp s opt ans sd ei p dc ex i).answer.lastmatch = some m ∧
      1 ≤ m ∧ m ≤ s.length := by
  unfold scan_exp at h ⊢
  dsimp only at h ⊢
  have e1 := loop_exp_le (s.drop (p + 1 + 1)) 0
  have e2 := loop_exp_le (s.drop (p + 1)) 0
  simp only [List.length_drop] at e1 e2
  split_ifs at h ⊢ <;> (try dsimp only at h) <;> (try dsimp only) <;>
    first
      | (rw [hva] at h; exact Bool.noConfusion h)
      | exact ⟨_, scan_finish_lastmatch _ _ _ _ _ _ _ _ _ _ hva h, by omega, by omega⟩

theorem scan_digits_lastmatch (s : List Nat) (opt : parse_options)
    (ans0 : parsed_number_string) (p0 : Nat) (hva : ans0.valid = false) (hp0 : p0 ≤ s.length) :
    (scan_digits s opt ans0 p0).answer.valid = true →
      ∃ m, (scan_digits s opt ans0 p0).answer.lastmatch = some m ∧
        1 ≤ m ∧ m ≤ s.length := by
  intro h
  unfold scan_digits at h ⊢
  dsimp only at h ⊢
  simp only [List.length_drop] at h ⊢
  have d1 := loop_digits_le (s.drop p0) 0
  simp only [List.length_drop] at d1
  have c1 := loop_chunks_le (s.length - (p0 + (loop_digits (s.drop p0) 0).2 + 1))
    (s.drop (p0 + (loop_digits (s.drop p0) 0).2 + 1)) (loop_digits (s.drop p0) 0).1
  simp only [List.length_drop] at c1
  have d2 := loop_digits_le
    (s.drop (p0 + (loop_digits (s.drop p0) 0).2 + 1 +
      (loop_chunks (s.length - (p0 + (loop_digits (s.drop p0) 0).2 + 1))
        (s.drop (p0 + (loop_digits (s.drop p0) 0).2 + 1)) (loop_digits (s.drop p0) 0).1).2))
    (loop_chunks (s.length - (p0 + (loop_digits (s.drop p0) 0).2 + 1))
      (s.drop (p0 + (loop_digits (s.drop p0) 0).2 + 1)) (loop_digits (s.drop p0) 0).1).1
  simp only [List.length_drop] at d2
  split_ifs at h ⊢ <;>
    first
      | (rw [hva] at h; exact Bool.noConfusion h)
      | (refine scan_exp_lastmatch _ _ _ _ _ _ _ _ _ hva h ?_ ?_ <;> omega)

theorem parse_lastmatch (s : List Nat) (opt : parse_options) (hs : s ≠ []) :
    (parse_number_ext s opt).answer.valid = true →
      ∃ m, (parse_number_ext s opt).answer.lastmatch = some m ∧
        1 ≤ m ∧ m ≤ s.length := by
  intro h
  cases s with
  | nil => exact absurd rfl hs
  | cons c0 rest =>
    cases rest with
    | nil =>
      dsimp only [parse_number_ext] at h ⊢
      split_ifs at h ⊢ <;>
        first
          | exact Bool.noConfusion h
          | exact scan_digits_lastmatch _ _ _ _ rfl (by simp) h
    | cons c1 r2 =>
      dsimp only [parse_number_ext] at h ⊢
      split_ifs at h ⊢ <;>
        first
          | exact Bool.noConfusion h
          | exact scan_digits_lastmatch _ _ _ _ rfl (by simp) h
          | exact scan_digits_lastmatch _ _ _ _ rfl (by simp [Nat.succ_le_succ]) h



/-! ### Stage lemmas: the too_many_digits correction pass -/

theorem loop_trunc_eq_rederive (l : List Nat) (i : Nat)
    (hd : ∀ c ∈ l, is_integer c = true) (hi : i < 10 ^ 19) :
    loop_trunc l i = rederive l i := by
  induction l generalizing i with
  | nil => rfl
  | cons c cs ih =>
    have hc : c ≤ 57 := by
      have := hd c (by simp)
      simp [is_integer] at this
      omega
    simp only [loop_trunc, rederive]
    split
    · rename_i hlt
      have hsm : (i * 10 + (c - 48)) % U64 = i * 10 + (c - 48) := by
        apply Nat.mod_eq_of_lt
        unfold U64
        omega
      rw [hsm, ih _ (fun x hx => hd x (by simp [hx])) (by omega)]
    · rfl

theorem rederive_lt (l : List Nat) (i : Nat)
    (hd : ∀ c ∈ l, is_integer c = true) (hi : i < 10 ^ 19) :
    (rederive l i).1 < 10 ^ 19 := by
  induction l generalizing i with
  | nil => simpa [rederive] using hi
  | cons c cs ih =>
    have hc : c ≤ 57 := by
      have := hd c (by simp)
      simp [is_integer] at this
      omega
    simp only [rederive]
    split
    · rename_i hlt
      exact ih _ (fun x hx => hd x (by simp [hx])) (by omega)
    · simpa using hi

theorem loop_digits_sound (l : List Nat) (i : Nat) :
    ∀ c ∈ l.take (loop_digits l i).2, is_integer c = true := by
  induction l generalizing i with
  | nil => simp
  | cons c cs ih =>
    simp only [loop_digits]
    split
    · rename_i hc
      intro x hx
      rw [List.take_succ_cons] at hx
      rcases List.mem_cons.mp hx with rfl | hx'
      · exact hc
      · exact ih ((10 * i + (c - 48)) % U64) x hx'
    · simp

theorem loop_chunks_sound (fuel : Nat) (l : List Nat) (i : Nat) (hb : ∀ c ∈ l, c < 256) :
    ∀ c ∈ l.take (loop_chunks fuel l i).2, is_integer c = true := by
  induction fuel generalizing l i with
  | zero => simp [loop_chunks]
  | succ f ih =>
    simp only [loop_chunks]
    split
    · rename_i hcond
      intro x hx
      have h8 : 8 ≤ l.length := hcond.1
      have hmade := hcond.2
      rw [is_made_read l hb] at hmade
      have htake : l.take ((loop_chunks f (l.drop 8)
          ((i * 100000000 + parse_eight_digits_unrolled (read_u64 l)) % U64)).2 + 8) =
          l.take 8 ++ (l.drop 8).take (loop_chunks f (l.drop 8)
            ((i * 100000000 + parse_eight_digits_unrolled (read_u64 l)) % U64)).2 := by
        rw [Nat.add_comm, List.take_add]
      rw [htake] at hx
      rcases List.mem_append.mp hx with hx8 | hxr
      · -- x is one of the first eight bytes, all digits by the SWAR test
        have hidx : ∃ k, k < 8 ∧ l.getD k 0 = x := by
          have hlt : ∀ m : Nat, m < (l.take 8).length → (l.take 8).getD m 0 = l.getD m 0 := by
            intro m hm
            have hm8 : m < 8 := by
              simp only [List.length_take] at hm
              omega
            simp only [List.getD_eq_getElem?_getD]
            rw [List.getElem?_take, if_pos hm8]
          obtain ⟨k, hk, hkx⟩ := List.mem_iff_getElem.mp hx8
          refine ⟨k, ?_, ?_⟩
          · simp only [List.length_take] at hk
            omega
          · have := hlt k hk
            simp only [List.getD_eq_getElem?_getD] at this ⊢
            rw [← this]
            simp [List.getElem?_eq_getElem hk, hkx]
        obtain ⟨k, hk8, rfl⟩ := hidx
        obtain ⟨g0, g1, g2, g3, g4, g5, g6, g7⟩ := hmade
        interval_cases k <;> assumption
      · exact ih (l.drop 8) _ (fun y hy => hb y (List.mem_of_mem_drop hy)) x hxr
    · simp

theorem scan_finish_tmd (s : List Nat) (opt : parse_options) (ans : parsed_number_string)
    (sd ei p : Nat) (dc ex : Int) (i : Nat) (en : Int)
    (htm : ans.too_many_digits = false)
    (hei : (ei : Int) = (ans.integer.ptr : Int) + (ans.integer.len : Int)) :
    (scan_finish s opt ans sd ei p dc ex i en).answer.too_many_digits = true →
      (scan_finish s opt ans sd ei p dc ex i en).answer.integer = ans.integer ∧
      (scan_finish s opt ans sd ei p dc ex i en).answer.fraction = ans.fraction ∧
      (scan_finish s opt ans sd ei p dc ex i en).exp_num = en ∧
      correction_shape s (scan_finish s opt ans sd ei p dc ex i en) := by
  intro h
  unfold scan_finish at h ⊢
  unfold correction_shape
  dsimp only at h ⊢
  split_ifs at h ⊢ <;>
    first
      | (rw [htm] at h; exact Bool.noConfusion h)
      | exact Bool.noConfusion h
      | (refine ⟨rfl, rfl, rfl, rfl, ?_⟩
         dsimp only
         rw [hei]
         push_cast
         ring)
      | (refine ⟨rfl, rfl, rfl, rfl, rfl⟩)

theorem scan_exp_tmd (s : List Nat) (opt : parse_options) (ans : parsed_number_string)
    (sd ei p : Nat) (dc ex : Int) (i : Nat)
    (h : (scan_exp s opt ans sd ei p dc ex i).answer.too_many_digits = true)
    (htm : ans.too_many_digits = false)
    (hei : (ei : Int) = (ans.integer.ptr : Int) + (ans.integer.len : Int)) :
    (scan_exp s opt ans sd ei p dc ex i).answer.integer = ans.integer ∧
      (scan_exp s opt ans sd ei p dc ex i).answer.fraction = ans.fraction ∧
      correction_shape s (scan_exp s opt ans sd ei p dc ex i) := by
  unfold scan_exp at h ⊢
  dsimp only at h ⊢
  split_ifs at h ⊢ <;>
    first
      | (rw [htm] at h; exact Bool.noConfusion h)
      | (obtain ⟨h1, h2, h3, h4⟩ := scan_finish_tmd _ _ _ _ _ _ _ _ _ _ htm hei h
         exact ⟨h1, h2, h4⟩)



theorem scan_digits_tmd (s : List Nat) (opt : parse_options) (ans0 : parsed_number_string)
    (p0 : Nat) (hb : ∀ c ∈ s, c < 256)
    (htm : ans0.too_many_digits = false) (hfr : ans0.fraction = {}) :
    (scan_digits s opt ans0 p0).answer.too_many_digits = true →
      correction_shape s (scan_digits s opt ans0 p0) ∧
      (∀ c ∈ (s.drop (scan_digits s opt ans0 p0).answer.integer.ptr).take
          (scan_digits s opt ans0 p0).answer.integer.len, is_integer c = true) ∧
      (∀ c ∈ (s.drop (scan_digits s opt ans0 p0).answer.fraction.ptr).take
          (scan_digits s opt ans0 p0).answer.fraction.len, is_integer c = true) := by
  intro h
  unfold scan_digits at h ⊢
  dsimp only at h ⊢
  split_ifs at h ⊢ with h1 h2 h3
  · rw [htm] at h
    exact Bool.noConfusion h
  · obtain ⟨hI, hF, hshape⟩ := scan_exp_tmd _ _ _ _ _ _ _ _ _ h htm
      (by dsimp only; push_cast; rfl)
    refine ⟨hshape, ?_, ?_⟩
    · rw [hI]
      exact loop_digits_sound (s.drop p0) 0
    · rw [hF]
      intro x hx
      dsimp only at hx
      rw [List.take_add] at hx
      rcases List.mem_append.mp hx with hx1 | hx2
      · exact loop_chunks_sound _ _ _
          (fun y hy => hb y (List.mem_of_mem_drop hy)) x hx1
      · rw [List.drop_drop] at hx2
        exact loop_digits_sound _ _ x hx2
  · rw [htm] at h
    exact Bool.noConfusion h
  · obtain ⟨hI, hF, hshape⟩ := scan_exp_tmd _ _ _ _ _ _ _ _ _ h htm
      (by dsimp only; push_cast; rfl)
    refine ⟨hshape, ?_, ?_⟩
    · rw [hI]
      exact loop_digits_sound (s.drop p0) 0
    · rw [hF, hfr]
      intro x hx
      simp at hx

theorem parse_tmd (s : List Nat) (opt : parse_options) (hb : ∀ c ∈ s, c < 256) :
    (parse_number_ext s opt).answer.too_many_digits = true →
      correction_shape s (parse_number_ext s opt) ∧
      (∀ c ∈ (s.drop (parse_number_ext s opt).answer.integer.ptr).take
          (parse_number_ext s opt).answer.integer.len, is_integer c = true) ∧
      (∀ c ∈ (s.drop (parse_number_ext s opt).answer.fraction.ptr).take
          (parse_number_ext s opt).answer.fraction.len, is_integer c = true) := by
  intro h
  cases s with
  | nil => exact Bool.noConfusion h
  | cons c0 rest =>
    cases rest with
    | nil =>
      dsimp only [parse_number_ext] at h ⊢
      split_ifs at h ⊢ <;>
        first
          | exact Bool.noConfusion h
          | exact scan_digits_tmd _ _ _ _ hb rfl rfl h
    | cons c1 r2 =>
      dsimp only [parse_number_ext] at h ⊢
      split_ifs at h ⊢ <;>
        first
          | exact Bool.noConfusion h
          | exact scan_digits_tmd _ _ _ _ hb rfl rfl h


/-! ### Claim-level theorems -/

/-- Claim C2 (corrected): whenever too_many_digits is flagged, the mantissa is
re-derived by re-walking the integer span (continuing into the fraction span if
the integer walk stays below 10^18) one digit at a time, stopping only after
consuming the digit that takes the running value to or past 10^18, so the
re-derived mantissa is strictly below 10^19; the exponent is the count of
unconsumed digits of the relevant span, offset by the explicit exponent. -/
theorem claim_C2 (s : List Nat) (opt : parse_options) (hb : ∀ c ∈ s, c < 256)
    (h : (parse_number_string s opt).too_many_digits = true) :
    (parse_number_string s opt).mantissa < 10 ^ 19 ∧
    (let intB := (s.drop (parse_number_string s opt).integer.ptr).take
        (parse_number_string s opt).integer.len
     let frB := (s.drop (parse_number_string s opt).fraction.ptr).take
        (parse_number_string s opt).fraction.len
     let t1 := rederive intB 0
     if 10 ^ 18 ≤ t1.1 then
       (parse_number_string s opt).mantissa = t1.1 ∧
         (parse_number_string s opt).exponent =
           ((parse_number_string s opt).integer.len : Int) - (t1.2 : Int) +
             (parse_number_ext s opt).exp_num
     else
       (parse_number_string s opt).mantissa = (rederive frB t1.1).1 ∧
         (parse_number_string s opt).exponent =
           -(((rederive frB t1.1).2 : Int)) + (parse_number_ext s opt).exp_num) := by
  unfold parse_number_string at h ⊢
  obtain ⟨hshape, hint, hfr⟩ := parse_tmd s opt hb h
  unfold correction_shape at hshape
  dsimp only at hshape ⊢
  rw [show (1000000000000000000 : Nat) = 10 ^ 18 from by norm_num] at hshape
  rw [loop_trunc_eq_rederive _ 0 hint (by norm_num)] at hshape
  by_cases hcond : 10 ^ 18 ≤
      (rederive ((s.drop (parse_number_ext s opt).answer.integer.ptr).take
        (parse_number_ext s opt).answer.integer.len) 0).1
  · rw [if_pos hcond] at hshape ⊢
    obtain ⟨hm, he⟩ := hshape
    refine ⟨?_, hm, he⟩
    rw [hm]
    exact rederive_lt _ 0 hint (by norm_num)
  · rw [if_neg hcond] at hshape ⊢
    rw [loop_trunc_eq_rederive _ _ hfr (by omega)] at hshape
    obtain ⟨hm, he⟩ := hshape
    refine ⟨?_, hm, he⟩
    rw [hm]
    exact rederive_lt _ _ hfr (by omega)

/-- Claim C1 (corrected): the 20-digit carve-out is active only under the
strict interchange rules with integer preference.  For a pure-integer literal
of more than 19 digits with no leading zero, scanned with json rules,
parse_ints set and a format allowing the fixed form, too_many_digits is
flagged exactly when the digit count exceeds 20 or the accumulated value is
numerically below 10^19; when not flagged the scan is valid with is_64bit_int
set and the mantissa is exactly the accumulated value. -/
theorem claim_C1 (ds : List Nat) (hds : ∀ c ∈ ds, is_integer c = true)
    (hne : ds ≠ []) (hhead : ds.headD 0 ≠ 48) (hlen : 19 < ds.length) :
    (parse_number_string ds ⟨⟨true, true⟩, parse_rules.json_rules, true, 46⟩).valid = true ∧
    (parse_number_string ds ⟨⟨true, true⟩, parse_rules.json_rules, true, 46⟩).too_many_digits =
      (decide (20 < ds.length) || decide (accDigits 0 ds < 10 ^ 19)) ∧
    ((decide (20 < ds.length) || decide (accDigits 0 ds < 10 ^ 19)) = false →
      (parse_number_string ds ⟨⟨true, true⟩, parse_rules.json_rules, true, 46⟩).is_64bit_int
          = true ∧
      (parse_number_string ds ⟨⟨true, true⟩, parse_rules.json_rules, true, 46⟩).mantissa
          = accDigits 0 ds) := by
  obtain ⟨c0, rest, rfl⟩ := List.exists_cons_of_ne_nil hne
  simp only [List.length_cons] at hlen
  have hc0 : is_integer c0 = true := hds c0 (by simp)
  have hc0b : 48 ≤ c0 ∧ c0 ≤ 57 := by simpa [is_integer] using hc0
  have hc048 : c0 ≠ 48 := by simpa using hhead
  have hld : loop_digits (c0 :: rest) 0 = (accDigits 0 (c0 :: rest), rest.length + 1) := by
    have h := loop_digits_run (c0 :: rest) [] 0 hds (Or.inl rfl)
    simpa using h
  unfold parse_number_string parse_number_ext
  dsimp only
  rw [if_neg (show ¬ c0 = 45 by omega)]
  unfold scan_digits
  dsimp only
  simp only [List.drop_zero, List.length_cons]
  rw [hld]
  dsimp only
  rw [if_neg (show ¬ (0 + (rest.length + 1) < rest.length + 1 ∧
    (c0 :: rest).getD (0 + (rest.length + 1)) 0 = 46) from by omega)]
  rw [if_neg (show ¬ ((rest.length + 1 : Nat) : Int) = 0 from by omega)]
  unfold scan_exp
  dsimp only
  rw [if_neg (show ¬ (true = true ∧ 0 + (rest.length + 1) < (c0 :: rest).length ∧
    ((c0 :: rest).getD (0 + (rest.length + 1)) 0 = 101 ∨
      (c0 :: rest).getD (0 + (rest.length + 1)) 0 = 69)) from by
    simp only [List.length_cons]
    omega)]
  rw [if_neg (show ¬ (true = true ∧ true = false) from by simp)]
  unfold scan_finish
  dsimp only
  rw [if_neg (show ¬ (parse_rules.json_rules = parse_rules.json_rules ∧
    (c0 :: rest).getD 0 0 = 48 ∧ 2 ≤ ((rest.length + 1 : Nat) : Int) ∧
    is_integer ((c0 :: rest).getD (0 + 1) 0) = true) from by
    rintro ⟨-, h48, -, -⟩
    exact hc048 (by simpa using h48))]
  have h64 : decide (0 + (rest.length + 1) = 0 + (rest.length + 1)) = true := by simp
  rw [h64]
  rw [if_pos (show (19 : Int) < ((rest.length + 1 : Nat) : Int) from by omega)]
  simp only [List.drop_zero]
  have htrim : trim_count (c0 :: rest) 46 ((rest.length + 1 : Nat) : Int) =
      ((rest.length + 1 : Nat) : Int) := by
    simp only [trim_count]
    rw [if_neg]
    omega
  simp only [htrim]
  rw [if_pos (show True ∧ True ∧ True from ⟨trivial, trivial, trivial⟩)]
  have hdec : decide ((20 : Int) < ((rest.length + 1 : Nat) : Int)) =
      decide (20 < rest.length + 1) := by
    rw [decide_eq_decide]
    constructor <;> intro h <;> exact_mod_cast h
  simp only [hdec, show (10000000000000000000 : Nat) = 10 ^ 19 from by norm_num]
  by_cases htmd : (decide (20 < rest.length + 1) ||
      decide (accDigits 0 (c0 :: rest) < 10 ^ 19)) = true
  · rw [if_pos htmd]
    split_ifs <;>
      exact ⟨rfl, htmd.symm, fun hcon => by rw [hcon] at htmd; exact Bool.noConfusion htmd⟩
  · rw [if_neg htmd]
    rw [Bool.not_eq_true] at htmd
    exact ⟨rfl, htmd.symm, fun _ => ⟨rfl, rfl⟩⟩

/-- Claim C3: the SWAR all-digit test returns true on a 64-bit word exactly
when every one of its eight byte lanes holds an ASCII digit. -/
theorem claim_C3 (val : Nat) (hv : val < U64) :
    is_made_of_eight_digits_fast val = true ↔
      ((48 ≤ val % 2 ^ 8 ∧ val % 2 ^ 8 ≤ 57) ∧
       (48 ≤ val / 2 ^ 8 % 2 ^ 8 ∧ val / 2 ^ 8 % 2 ^ 8 ≤ 57) ∧
       (48 ≤ val / 2 ^ 16 % 2 ^ 8 ∧ val / 2 ^ 16 % 2 ^ 8 ≤ 57) ∧
       (48 ≤ val / 2 ^ 24 % 2 ^ 8 ∧ val / 2 ^ 24 % 2 ^ 8 ≤ 57) ∧
       (48 ≤ val / 2 ^ 32 % 2 ^ 8 ∧ val / 2 ^ 32 % 2 ^ 8 ≤ 57) ∧
       (48 ≤ val / 2 ^ 40 % 2 ^ 8 ∧ val / 2 ^ 40 % 2 ^ 8 ≤ 57) ∧
       (48 ≤ val / 2 ^ 48 % 2 ^ 8 ∧ val / 2 ^ 48 % 2 ^ 8 ≤ 57) ∧
       (48 ≤ val / 2 ^ 56 % 2 ^ 8 ∧ val / 2 ^ 56 % 2 ^ 8 ≤ 57)) := by
  have hval : val % 2 ^ 8 + val / 2 ^ 8 % 2 ^ 8 * 2 ^ 8 + val / 2 ^ 16 % 2 ^ 8 * 2 ^ 16 +
      val / 2 ^ 24 % 2 ^ 8 * 2 ^ 24 + val / 2 ^ 32 % 2 ^ 8 * 2 ^ 32 +
      val / 2 ^ 40 % 2 ^ 8 * 2 ^ 40 + val / 2 ^ 48 % 2 ^ 8 * 2 ^ 48 +
      val / 2 ^ 56 % 2 ^ 8 * 2 ^ 56 = val := by
    unfold U64 at hv
    omega
  have h := is_made_bytes (val % 2 ^ 8) (val / 2 ^ 8 % 2 ^ 8) (val / 2 ^ 16 % 2 ^ 8)
    (val / 2 ^ 24 % 2 ^ 8) (val / 2 ^ 32 % 2 ^ 8) (val / 2 ^ 40 % 2 ^ 8)
    (val / 2 ^ 48 % 2 ^ 8) (val / 2 ^ 56 % 2 ^ 8)
    (by omega) (by omega) (by omega) (by omega) (by omega) (by omega) (by omega) (by omega)
  rw [hval] at h
  exact h

/-- Claim C4: on a word whose eight byte lanes are all ASCII digits (every
word accepted by the SWAR test), the SWAR fold returns the positional base-10
value of the eight digits in memory order, lane 0 most significant. -/
theorem claim_C4 (val : Nat) (hv : val < U64)
    (h : is_made_of_eight_digits_fast val = true) :
    parse_eight_digits_unrolled val =
      (val % 2 ^ 8 - 48) * 10 ^ 7 + (val / 2 ^ 8 % 2 ^ 8 - 48) * 10 ^ 6 +
        (val / 2 ^ 16 % 2 ^ 8 - 48) * 10 ^ 5 + (val / 2 ^ 24 % 2 ^ 8 - 48) * 10 ^ 4 +
        (val / 2 ^ 32 % 2 ^ 8 - 48) * 10 ^ 3 + (val / 2 ^ 40 % 2 ^ 8 - 48) * 10 ^ 2 +
        (val / 2 ^ 48 % 2 ^ 8 - 48) * 10 + (val / 2 ^ 56 % 2 ^ 8 - 48) := by
  have hval : val % 2 ^ 8 + val / 2 ^ 8 % 2 ^ 8 * 2 ^ 8 + val / 2 ^ 16 % 2 ^ 8 * 2 ^ 16 +
      val / 2 ^ 24 % 2 ^ 8 * 2 ^ 24 + val / 2 ^ 32 % 2 ^ 8 * 2 ^ 32 +
      val / 2 ^ 40 % 2 ^ 8 * 2 ^ 40 + val / 2 ^ 48 % 2 ^ 8 * 2 ^ 48 +
      val / 2 ^ 56 % 2 ^ 8 * 2 ^ 56 = val := by
    unfold U64 at hv
    omega
  rw [← hval] at h
  have hb := (is_made_bytes (val % 2 ^ 8) (val / 2 ^ 8 % 2 ^ 8) (val / 2 ^ 16 % 2 ^ 8)
    (val / 2 ^ 24 % 2 ^ 8) (val / 2 ^ 32 % 2 ^ 8) (val / 2 ^ 40 % 2 ^ 8)
    (val / 2 ^ 48 % 2 ^ 8) (val / 2 ^ 56 % 2 ^ 8)
    (by omega) (by omega) (by omega) (by omega) (by omega) (by omega)
    (by omega) (by omega)).mp h
  obtain ⟨g0, g1, g2, g3, g4, g5, g6, g7⟩ := hb
  have hp := parse_eight_digit_bytes (val % 2 ^ 8) (val / 2 ^ 8 % 2 ^ 8)
    (val / 2 ^ 16 % 2 ^ 8) (val / 2 ^ 24 % 2 ^ 8) (val / 2 ^ 32 % 2 ^ 8)
    (val / 2 ^ 40 % 2 ^ 8) (val / 2 ^ 48 % 2 ^ 8) (val / 2 ^ 56 % 2 ^ 8)
    g0 g1 g2 g3 g4 g5 g6 g7
  rw [hval] at hp
  exact hp

/-- Claim C5 (code bug): the constant-evaluated byte-by-byte path of read_u64
widens through plain char, which is signed on the mainstream targets, so a
byte at or above 0x80 sign-extends; on the buffer FF 00 00 00 00 00 00 00 the
two strategies disagree. -/
theorem claim_C5 :
    read_u64 [255, 0, 0, 0, 0, 0, 0, 0] = 255 ∧
    read_u64_cx [255, 0, 0, 0, 0, 0, 0, 0] = U64 - 1 ∧
    read_u64_cx [255, 0, 0, 0, 0, 0, 0, 0] ≠ read_u64 [255, 0, 0, 0, 0, 0, 0, 0] := by
  refine ⟨by decide, by decide, by decide⟩

/-- Claim C8: every accepted scan reports a lastmatch that strictly exceeds
the start of the range and does not exceed its end. -/
theorem claim_C8 (s : List Nat) (opt : parse_options) (hs : s ≠ [])
    (h : (parse_number_string s opt).valid = true) :
    ∃ m, (parse_number_string s opt).lastmatch = some m ∧ 0 < m ∧ m ≤ s.length := by
  obtain ⟨m, hm, h1, h2⟩ := parse_lastmatch s opt hs h
  exact ⟨m, hm, h1, h2⟩

/-- Claim C9 (corrected): a rejected scan leaves the five scalar result fields
at their defaults, lastmatch none, mantissa 0, exponent 0, is_64bit_int false
and too_many_digits false; the integer and fraction spans, by contrast, may
already have been filled by the digit pass. -/
theorem claim_C9 (s : List Nat) (opt : parse_options)
    (h : (parse_number_string s opt).valid = false) :
    (parse_number_string s opt).lastmatch = none ∧
    (parse_number_string s opt).mantissa = 0 ∧
    (parse_number_string s opt).exponent = 0 ∧
    (parse_number_string s opt).is_64bit_int = false ∧
    (parse_number_string s opt).too_many_digits = false := by
  have h5 := parse_invalid_fields s opt h
  exact ⟨h5.1, h5.2.1, h5.2.2.1, h5.2.2.2.1, h5.2.2.2.2.1⟩

/-- The strict-interchange leading-zero rejection at the finalization stage. -/
theorem scan_finish_json_zero (s : List Nat) (opt : parse_options)
    (ans : parsed_number_string) (ei p : Nat) (dc ex : Int) (i : Nat) (en : Int)
    (hj : opt.rules = parse_rules.json_rules) (h48 : s.getD 0 0 = 48)
    (hd : is_integer (s.getD 1 0) = true) (hdc : 2 ≤ dc) (hva : ans.valid = false) :
    (scan_finish s opt ans 0 ei p dc ex i en).answer.valid = false := by
  unfold scan_finish
  rw [if_pos (show opt.rules = parse_rules.json_rules ∧ s.getD 0 0 = 48 ∧ 2 ≤ dc ∧
    is_integer (s.getD (0 + 1) 0) = true from ⟨hj, h48, hdc, hd⟩)]
  exact hva

/-- The strict-interchange leading-zero rejection through the exponent
stage. -/
theorem scan_exp_json_zero (s : List Nat) (opt : parse_options)
    (ans : parsed_number_string) (ei p : Nat) (dc ex : Int) (i : Nat)
    (hj : opt.rules = parse_rules.json_rules) (h48 : s.getD 0 0 = 48)
    (hd : is_integer (s.getD 1 0) = true) (hdc : 2 ≤ dc) (hva : ans.valid = false) :
    (scan_exp s opt ans 0 ei p dc ex i).answer.valid = false := by
  unfold scan_exp
  dsimp only
  split_ifs <;>
    first
      | exact hva
      | exact scan_finish_json_zero _ _ _ _ _ _ _ _ _ hj h48 hd hdc hva

/-- The strict-interchange leading-zero rejection through the digit stage. -/
theorem scan_digits_json_zero (c0 c1 : Nat) (r : List Nat) (opt : parse_options)
    (ans0 : parsed_number_string) (hj : opt.rules = parse_rules.json_rules)
    (hc0 : is_integer c0 = true) (hc1 : is_integer c1 = true) (h48 : c0 = 48)
    (hva : ans0.valid = false) :
    (scan_digits (c0 :: c1 :: r) opt ans0 0).answer.valid = false := by
  unfold scan_digits
  dsimp only
  simp only [List.drop_zero]
  have hn1 : 2 ≤ (loop_digits (c0 :: c1 :: r) 0).2 := by
    simp only [loop_digits, hc0, hc1, eq_self_iff_true, if_true]
    omega
  split_ifs <;>
    first
      | exact hva
      | exact scan_exp_json_zero _ _ _ _ _ _ _ _ hj (by simpa using h48)
          (by simpa using hc1) (by omega) hva

/-- Claim C7: under the strict-interchange rules a literal whose integer part
has at least two digits and starts with the digit zero is rejected, whatever
follows; under the standard rules with the fixed form allowed the literal 01
is accepted. -/
theorem claim_C7 (d : Nat) (rest : List Nat) (opt : parse_options)
    (hd : is_integer d = true) (hj : opt.rules = parse_rules.json_rules) :
    (parse_number_string (48 :: d :: rest) opt).valid = false ∧
    (parse_number_string [48, 49]
      ⟨⟨true, true⟩, parse_rules.std_rules, false, 46⟩).valid = true := by
  refine ⟨?_, by decide⟩
  unfold parse_number_string parse_number_ext
  dsimp only
  rw [if_neg (show ¬ (48 : Nat) = 45 from by omega)]
  exact scan_digits_json_zero 48 d rest opt _ hj rfl hd rfl rfl

/-- The fraction scan on a run that is all digits to the end of the input. -/
theorem frac_scan_nil (ds : List Nat) (i fuel : Nat) (hi : i < U64)
    (hfuel : ds.length ≤ fuel) (hds : ∀ c ∈ ds, is_integer c = true) :
    (loop_chunks fuel ds i).2 +
        (loop_digits (ds.drop (loop_chunks fuel ds i).2) (loop_chunks fuel ds i).1).2 =
      ds.length ∧
      (loop_digits (ds.drop (loop_chunks fuel ds i).2) (loop_chunks fuel ds i).1).1 =
        accDigits i ds := by
  have hbs : ∀ c ∈ ds ++ ([] : List Nat), c < 256 := by
    intro c hc
    simp only [List.append_nil] at hc
    have h := hds c hc
    simp only [is_integer, decide_eq_true_eq] at h
    omega
  have h := frac_scan ds [] i fuel hi (by simpa using hfuel) hds hbs (Or.inl rfl)
  simpa using h

/-- Finalization of a short (at most 19 digit) literal under the standard
rules: lastmatch, valid, exponent and mantissa are written directly. -/
theorem scan_finish_small (s : List Nat) (opt : parse_options)
    (ans : parsed_number_string) (sd ei p : Nat) (dc ex : Int) (i : Nat) (en : Int)
    (hj : opt.rules = parse_rules.std_rules) (hdc : dc ≤ 19) (hp : p ≠ ei) :
    scan_finish s opt ans sd ei p dc ex i en =
      { answer :=
          { ans with
            lastmatch := some p
            valid := true
            is_64bit_int := false
            exponent := ex
            mantissa := i }
        exp_num := en } := by
  unfold scan_finish
  rw [if_neg (show ¬ (opt.rules = parse_rules.json_rules ∧ s.getD sd 0 = 48 ∧ 2 ≤ dc ∧
    is_integer (s.getD (sd + 1) 0) = true) from by
    rintro ⟨hjj, -⟩
    rw [hj] at hjj
    exact parse_rules.noConfusion hjj)]
  dsimp only
  rw [decide_eq_false hp]
  rw [if_neg (show ¬ (19 : Int) < dc from by omega)]

/-- The exponent stage of a short literal with no byte at position p: under
the standard rules with the fixed form allowed it finalizes directly. -/
theorem scan_exp_small (s : List Nat) (opt : parse_options)
    (ans : parsed_number_string) (sd ei p : Nat) (dc ex : Int) (i : Nat)
    (hj : opt.rules = parse_rules.std_rules) (hfx : opt.format.fixed = true)
    (hdc : dc ≤ 19) (hp : p ≠ ei) (hplen : s.length ≤ p) :
    scan_exp s opt ans sd ei p dc ex i =
      { answer :=
          { ans with
            lastmatch := some p
            valid := true
            is_64bit_int := false
            exponent := ex
            mantissa := i }
        exp_num := 0 } := by
  unfold scan_exp
  rw [if_neg (show ¬ (opt.format.scientific = true ∧ p < s.length ∧
    (s.getD p 0 = 101 ∨ s.getD p 0 = 69)) from by
    rintro ⟨-, hlt, -⟩
    omega)]
  rw [if_neg (show ¬ (opt.format.scientific = true ∧ opt.format.fixed = false) from by
    rintro ⟨-, hf⟩
    rw [hfx] at hf
    exact Bool.noConfusion hf)]
  exact scan_finish_small s opt ans sd ei p dc ex i 0 hj hdc hp

/-- Claim C10 (corrected): a literal that begins with the decimal point after
an optional minus sign, with no integer digits and one to nineteen fraction
digits, is accepted under the standard rules with the fixed form allowed, with
an empty integer span, the fraction span holding the digits, the mantissa
their exact value and the exponent minus the digit count. -/
theorem claim_C10 (ds : List Nat) (hds : ∀ c ∈ ds, is_integer c = true)
    (hne : ds ≠ []) (hlen : ds.length ≤ 19) :
    ((parse_number_string (46 :: ds) ⟨⟨true, true⟩, parse_rules.std_rules, false, 46⟩).valid = true ∧
     (parse_number_string (46 :: ds) ⟨⟨true, true⟩, parse_rules.std_rules, false, 46⟩).integer.ptr = 0 ∧
     (parse_number_string (46 :: ds) ⟨⟨true, true⟩, parse_rules.std_rules, false, 46⟩).integer.len = 0 ∧
     (parse_number_string (46 :: ds) ⟨⟨true, true⟩, parse_rules.std_rules, false, 46⟩).fraction.ptr = 1 ∧
     (parse_number_string (46 :: ds) ⟨⟨true, true⟩, parse_rules.std_rules, false, 46⟩).fraction.len = ds.length ∧
     (parse_number_string (46 :: ds) ⟨⟨true, true⟩, parse_rules.std_rules, false, 46⟩).mantissa = digitsVal ds ∧
     (parse_number_string (46 :: ds) ⟨⟨true, true⟩, parse_rules.std_rules, false, 46⟩).exponent = -(ds.length : Int)) ∧
    ((parse_number_string (45 :: 46 :: ds) ⟨⟨true, true⟩, parse_rules.std_rules, false, 46⟩).valid = true ∧
     (parse_number_string (45 :: 46 :: ds) ⟨⟨true, true⟩, parse_rules.std_rules, false, 46⟩).negative = true ∧
     (parse_number_string (45 :: 46 :: ds) ⟨⟨true, true⟩, parse_rules.std_rules, false, 46⟩).integer.ptr = 1 ∧
     (parse_number_string (45 :: 46 :: ds) ⟨⟨true, true⟩, parse_rules.std_rules, false, 46⟩).integer.len = 0 ∧
     (parse_number_string (45 :: 46 :: ds) ⟨⟨true, true⟩, parse_rules.std_rules, false, 46⟩).fraction.ptr = 2 ∧
     (parse_number_string (45 :: 46 :: ds) ⟨⟨true, true⟩, parse_rules.std_rules, false, 46⟩).fraction.len = ds.length ∧
     (parse_number_string (45 :: 46 :: ds) ⟨⟨true, true⟩, parse_rules.std_rules, false, 46⟩).mantissa = digitsVal ds ∧
     (parse_number_string (45 :: 46 :: ds) ⟨⟨true, true⟩, parse_rules.std_rules, false, 46⟩).exponent = -(ds.length : Int)) := by
  have hacc : accDigits 0 ds = digitsVal ds := by
    rw [accDigits_eq 0 ds (by unfold U64; norm_num)]
    simp only [Nat.zero_mul, Nat.zero_add]
    apply Nat.mod_eq_of_lt
    calc digitsVal ds < 10 ^ ds.length := digitsVal_lt ds hds
      _ ≤ 10 ^ 19 := Nat.pow_le_pow_right (by norm_num) hlen
      _ < U64 := by unfold U64; norm_num
  obtain ⟨hsum, hval⟩ := frac_scan_nil ds 0 ds.length (by unfold U64; norm_num) le_rfl hds
  have hdcle : ((0 : Nat) : Int) + ((((loop_chunks ds.length ds 0).2 +
      (loop_digits (ds.drop (loop_chunks ds.length ds 0).2) (loop_chunks ds.length ds 0).1).2 : Nat)) : Int) ≤ 19 := by
    rw [hsum]
    omega
  refine ⟨?_, ?_⟩
  · unfold parse_number_string parse_number_ext
    dsimp only
    rw [if_neg (show ¬ (46 : Nat) = 45 from by omega)]
    unfold scan_digits
    dsimp only
    simp only [List.drop_zero]
    rw [show loop_digits (46 :: ds) 0 = (0, 0) from rfl]
    dsimp only
    rw [if_pos (show 0 + 0 < (46 :: ds).length ∧ (46 :: ds).getD (0 + 0) 0 = 46 from
      ⟨by simp only [List.length_cons]; omega, rfl⟩)]
    rw [show (46 :: ds).drop (0 + 0 + 1) = ds from rfl]
    have hdrop2 : ∀ k : Nat, (46 :: ds).drop (0 + 0 + 1 + k) = ds.drop k := by
      intro k
      have hk : 0 + 0 + 1 + k = k + 1 := by omega
      rw [hk, List.drop_succ_cons]
    rw [hdrop2]
    rw [if_neg (show ¬ (((0 : Nat) : Int) + ((((loop_chunks ds.length ds 0).2 + (loop_digits (ds.drop (loop_chunks ds.length ds 0).2) (loop_chunks ds.length ds 0).1).2 : Nat)) : Int) = 0 ∨
        (parse_rules.std_rules = parse_rules.json_rules ∧ ((0 : Nat) : Int) + ((((loop_chunks ds.length ds 0).2 + (loop_digits (ds.drop (loop_chunks ds.length ds 0).2) (loop_chunks ds.length ds 0).1).2 : Nat)) : Int) = 1)) from by
      rintro (h0 | ⟨hj, -⟩)
      · rw [hsum] at h0
        exact hne (List.length_eq_zero.mp (by omega))
      · exact parse_rules.noConfusion hj)]
    have hpne : 0 + 0 + 1 + (loop_chunks ds.length ds 0).2 +
        (loop_digits (ds.drop (loop_chunks ds.length ds 0).2) (loop_chunks ds.length ds 0).1).2 ≠ 0 + 0 := by
      omega
    have hplen : (46 :: ds).length ≤ 0 + 0 + 1 + (loop_chunks ds.length ds 0).2 +
        (loop_digits (ds.drop (loop_chunks ds.length ds 0).2) (loop_chunks ds.length ds 0).1).2 := by
      simp only [List.length_cons]
      omega
    rw [scan_exp_small _ _ _ _ _ _ _ _ _ rfl rfl hdcle hpne hplen]
    refine ⟨rfl, rfl, rfl, rfl, hsum, hval.trans hacc, ?_⟩
    show ((0 + 0 + 1 : Nat) : Int) - ((0 + 0 + 1 + (loop_chunks ds.length ds 0).2 +
      (loop_digits (ds.drop (loop_chunks ds.length ds 0).2) (loop_chunks ds.length ds 0).1).2 : Nat) : Int) = -(ds.length : Int)
    omega
  · unfold parse_number_string parse_number_ext
    dsimp only
    rw [if_pos (show (45 : Nat) = 45 from rfl)]
    rw [if_neg (show ¬ (is_integer 46 = false ∧
        (parse_rules.std_rules = parse_rules.json_rules ∨ (46 : Nat) ≠ 46)) from by
      rintro ⟨-, (hj | hne46)⟩
      · exact parse_rules.noConfusion hj
      · exact hne46 rfl)]
    unfold scan_digits
    dsimp only
    rw [show (45 :: 46 :: ds).drop 1 = 46 :: ds from rfl]
    rw [show loop_digits (46 :: ds) 0 = (0, 0) from rfl]
    dsimp only
    rw [if_pos (show 1 + 0 < (45 :: 46 :: ds).length ∧
      (45 :: 46 :: ds).getD (1 + 0) 0 = 46 from
      ⟨by simp only [List.length_cons]; omega, rfl⟩)]
    rw [show (45 :: 46 :: ds).drop (1 + 0 + 1) = ds from rfl]
    have hdropS : ∀ k : Nat, (45 :: 46 :: ds).drop (1 + 0 + 1 + k) = ds.drop k := by
      intro k
      have hk : 1 + 0 + 1 + k = k + 1 + 1 := by omega
      rw [hk, List.drop_succ_cons, List.drop_succ_cons]
    rw [hdropS]
    rw [if_neg (show ¬ (((0 : Nat) : Int) + ((((loop_chunks ds.length ds 0).2 + (loop_digits (ds.drop (loop_chunks ds.length ds 0).2) (loop_chunks ds.length ds 0).1).2 : Nat)) : Int) = 0 ∨
        (parse_rules.std_rules = parse_rules.json_rules ∧ ((0 : Nat) : Int) + ((((loop_chunks ds.length ds 0).2 + (loop_digits (ds.drop (loop_chunks ds.length ds 0).2) (loop_chunks ds.length ds 0).1).2 : Nat)) : Int) = 1)) from by
      rintro (h0 | ⟨hj, -⟩)
      · rw [hsum] at h0
        exact hne (List.length_eq_zero.mp (by omega))
      · exact parse_rules.noConfusion hj)]
    have hpneS : 1 + 0 + 1 + (loop_chunks ds.length ds 0).2 +
        (loop_digits (ds.drop (loop_chunks ds.length ds 0).2) (loop_chunks ds.length ds 0).1).2 ≠ 1 + 0 := by
      omega
    have hplenS : (45 :: 46 :: ds).length ≤ 1 + 0 + 1 + (loop_chunks ds.length ds 0).2 +
        (loop_digits (ds.drop (loop_chunks ds.length ds 0).2) (loop_chunks ds.length ds 0).1).2 := by
      simp only [List.length_cons]
      omega
    rw [scan_exp_small _ _ _ _ _ _ _ _ _ rfl rfl hdcle hpneS hplenS]
    refine ⟨rfl, rfl, rfl, rfl, rfl, hsum, hval.trans hacc, ?_⟩
    show ((1 + 0 + 1 : Nat) : Int) - ((1 + 0 + 1 + (loop_chunks ds.length ds 0).2 +
      (loop_digits (ds.drop (loop_chunks ds.length ds 0).2) (loop_chunks ds.length ds 0).1).2 : Nat) : Int) = -(ds.length : Int)
    omega

/-- One step of the integer-digit loop on a digit byte. -/
theorem loop_digits_step (c : Nat) (cs : List Nat) (i : Nat) (hc : is_integer c = true) :
    loop_digits (c :: cs) i =
      ((loop_digits cs ((10 * i + (c - 48)) % U64)).1,
       (loop_digits cs ((10 * i + (c - 48)) % U64)).2 + 1) := by
  simp [loop_digits, hc]

/-- The integer-digit loop stops at once on a non-digit byte. -/
theorem loop_digits_stop (c : Nat) (cs : List Nat) (i : Nat) (hc : is_integer c = false) :
    loop_digits (c :: cs) i = (i, 0) := by
  simp [loop_digits, hc]

/-- Digit scan of the literal 1.5 followed by an exponent marker byte m and
arbitrary trailing bytes: hands over to the exponent stage with the spans,
count, exponent and mantissa of 1.5. -/
theorem c6_digits (m : Nat) (rest : List Nat) (opt : parse_options)
    (hdp : opt.decimal_point = 46) (hrules : opt.rules = parse_rules.std_rules)
    (hmnd : is_integer m = false) (hm256 : m < 256) (hb : ∀ c ∈ rest, c < 256) :
    scan_digits (49 :: 46 :: 53 :: m :: rest) opt { negative := decide (49 = 45) } 0 =
      scan_exp (49 :: 46 :: 53 :: m :: rest) opt
        { negative := decide (49 = 45)
          integer := { ptr := 0, len := 1 }
          fraction := { ptr := 2, len := 1 } }
        0 1 3 2 (-1) 15 := by
  have hld1 : loop_digits (49 :: 46 :: 53 :: m :: rest) 0 = (1, 1) := by
    rw [loop_digits_step 49 _ 0 rfl, loop_digits_stop 46 _ _ rfl]
    decide
  have hld2 : loop_digits (53 :: m :: rest) 1 = (15, 1) := by
    rw [loop_digits_step 53 _ 1 rfl, loop_digits_stop m _ _ hmnd]
    decide
  have hball : ∀ x ∈ (53 :: m :: rest), x < 256 := by
    intro x hx
    rcases List.mem_cons.mp hx with rfl | hx2
    · norm_num
    rcases List.mem_cons.mp hx2 with rfl | hx3
    · exact hm256
    · exact hb x hx3
  have hch : loop_chunks (53 :: m :: rest).length (53 :: m :: rest) 1 = (1, 0) := by
    simp only [List.length_cons]
    simp only [loop_chunks]
    rw [if_neg (show ¬ (8 ≤ (53 :: m :: rest).length ∧
      is_made_of_eight_digits_fast (read_u64 (53 :: m :: rest)) = true) from by
      rintro ⟨-, hmade⟩
      have hndd := is_made_false_at (53 :: m :: rest) hball 1 (by omega) hmnd
      rw [hndd] at hmade
      exact Bool.noConfusion hmade)]
  unfold scan_digits
  dsimp only
  simp only [List.drop_zero]
  rw [hld1]
  dsimp only
  rw [if_pos (show 0 + 1 < (49 :: 46 :: 53 :: m :: rest).length ∧
    (49 :: 46 :: 53 :: m :: rest).getD (0 + 1) 0 = opt.decimal_point from
    ⟨by simp only [List.length_cons]; omega, by rw [hdp]; exact rfl⟩)]
  rw [show (49 :: 46 :: 53 :: m :: rest).drop (0 + 1 + 1) = 53 :: m :: rest from rfl]
  rw [hch]
  dsimp only
  rw [show (49 :: 46 :: 53 :: m :: rest).drop (0 + 1 + 1 + 0) = 53 :: m :: rest from rfl]
  rw [hld2]
  dsimp only
  rw [if_neg (show ¬ (((1 : Nat) : Int) + ((0 + 1 : Nat) : Int) = 0 ∨
      (opt.rules = parse_rules.json_rules ∧
        ((1 : Nat) : Int) + ((0 + 1 : Nat) : Int) = 1)) from by
    rintro (h0 | ⟨hj, -⟩)
    · omega
    · rw [hrules] at hj
      exact parse_rules.noConfusion hj)]
  rfl

/-- The exponent stage on 1.5 followed by a marker with no digit after the
marker and its optional sign: rolls back to the marker, finalizing when the fixed
form is permitted and rejecting otherwise. -/
theorem c6_exp (m c : Nat) (r2 : List Nat) (opt : parse_options)
    (ans : parsed_number_string) (dc ex : Int) (i : Nat)
    (hm : m = 101 ∨ m = 69) (hsci : opt.format.scientific = true)
    (hnd : no_exp_digit (c :: r2)) :
    scan_exp (49 :: 46 :: 53 :: m :: c :: r2) opt ans 0 1 3 dc ex i =
      (if opt.format.fixed = false then { answer := ans }
       else scan_finish (49 :: 46 :: 53 :: m :: c :: r2) opt ans 0 1 3 dc ex i 0) := by
  have hgd : ∀ x : Nat, (49 :: 46 :: 53 :: m :: c :: r2).getD (3 + 1) 0 = x ↔ c = x := by
    intro x
    constructor <;> intro h <;> simpa using h
  unfold scan_exp
  rw [if_pos (show opt.format.scientific = true ∧
    3 < (49 :: 46 :: 53 :: m :: c :: r2).length ∧
    ((49 :: 46 :: 53 :: m :: c :: r2).getD 3 0 = 101 ∨
      (49 :: 46 :: 53 :: m :: c :: r2).getD 3 0 = 69) from
    ⟨hsci, by simp only [List.length_cons]; omega, hm⟩)]
  dsimp only
  unfold no_exp_digit at hnd
  dsimp only at hnd
  by_cases hc45 : c = 45
  · rw [if_pos (show 3 + 1 < (49 :: 46 :: 53 :: m :: c :: r2).length ∧
      (49 :: 46 :: 53 :: m :: c :: r2).getD (3 + 1) 0 = 45 from
      ⟨by simp only [List.length_cons]; omega, by simpa using hc45⟩)]
    dsimp only
    rw [if_pos (Or.inl hc45)] at hnd
    have h5 : is_integer ((49 :: 46 :: 53 :: m :: c :: r2).getD (3 + 1 + 1) 0) = false := by
      rcases hnd with rfl | hh
      · rfl
      · rw [show (49 :: 46 :: 53 :: m :: c :: r2).getD (3 + 1 + 1) 0 = r2.headD 0 from by
          cases r2 <;> rfl]
        exact hh
    rw [if_pos (show (49 :: 46 :: 53 :: m :: c :: r2).length ≤ 3 + 1 + 1 ∨
      is_integer ((49 :: 46 :: 53 :: m :: c :: r2).getD (3 + 1 + 1) 0) = false from Or.inr h5)]
  · by_cases hc43 : c = 43
    · rw [if_neg (show ¬ (3 + 1 < (49 :: 46 :: 53 :: m :: c :: r2).length ∧
        (49 :: 46 :: 53 :: m :: c :: r2).getD (3 + 1) 0 = 45) from by
        rintro ⟨-, h45⟩
        exact hc45 ((hgd 45).mp h45))]
      rw [if_pos (show 3 + 1 < (49 :: 46 :: 53 :: m :: c :: r2).length ∧
        (49 :: 46 :: 53 :: m :: c :: r2).getD (3 + 1) 0 = 43 from
        ⟨by simp only [List.length_cons]; omega, by simpa using hc43⟩)]
      dsimp only
      rw [if_pos (Or.inr hc43)] at hnd
      have h5 : is_integer ((49 :: 46 :: 53 :: m :: c :: r2).getD (3 + 1 + 1) 0) = false := by
        rcases hnd with rfl | hh
        · rfl
        · rw [show (49 :: 46 :: 53 :: m :: c :: r2).getD (3 + 1 + 1) 0 = r2.headD 0 from by
            cases r2 <;> rfl]
          exact hh
      rw [if_pos (show (49 :: 46 :: 53 :: m :: c :: r2).length ≤ 3 + 1 + 1 ∨
        is_integer ((49 :: 46 :: 53 :: m :: c :: r2).getD (3 + 1 + 1) 0) = false from
        Or.inr h5)]
    · rw [if_neg (show ¬ (3 + 1 < (49 :: 46 :: 53 :: m :: c :: r2).length ∧
        (49 :: 46 :: 53 :: m :: c :: r2).getD (3 + 1) 0 = 45) from by
        rintro ⟨-, h45⟩
        exact hc45 ((hgd 45).mp h45))]
      rw [if_neg (show ¬ (3 + 1 < (49 :: 46 :: 53 :: m :: c :: r2).length ∧
        (49 :: 46 :: 53 :: m :: c :: r2).getD (3 + 1) 0 = 43) from by
        rintro ⟨-, h43⟩
        exact hc43 ((hgd 43).mp h43))]
      dsimp only
      rw [if_neg (show ¬ (c = 45 ∨ c = 43) from by tauto)] at hnd
      have h5 : is_integer ((49 :: 46 :: 53 :: m :: c :: r2).getD (3 + 1) 0) = false := by
        rcases hnd with heq | hh
        · exact List.noConfusion heq
        · simpa using hh
      rw [if_pos (show (49 :: 46 :: 53 :: m :: c :: r2).length ≤ 3 + 1 ∨
        is_integer ((49 :: 46 :: 53 :: m :: c :: r2).getD (3 + 1) 0) = false from Or.inr h5)]

/-- Claim C6: on 1.5 followed by a dangling exponent marker, a format that
also permits the fixed form accepts with the marker unconsumed, lastmatch at
the marker and mantissa and exponent reflecting 1.5 only, while a
scientific-only format rejects the input. -/
theorem claim_C6 (m : Nat) (rest : List Nat) (hm : m = 101 ∨ m = 69)
    (hb : ∀ c ∈ rest, c < 256) (hnd : no_exp_digit rest) :
    ((parse_number_string (49 :: 46 :: 53 :: m :: rest)
        ⟨⟨true, true⟩, parse_rules.std_rules, false, 46⟩).valid = true ∧
     (parse_number_string (49 :: 46 :: 53 :: m :: rest)
        ⟨⟨true, true⟩, parse_rules.std_rules, false, 46⟩).lastmatch = some 3 ∧
     (parse_number_string (49 :: 46 :: 53 :: m :: rest)
        ⟨⟨true, true⟩, parse_rules.std_rules, false, 46⟩).mantissa = 15 ∧
     (parse_number_string (49 :: 46 :: 53 :: m :: rest)
        ⟨⟨true, true⟩, parse_rules.std_rules, false, 46⟩).exponent = -1) ∧
    (parse_number_string (49 :: 46 :: 53 :: m :: rest)
        ⟨⟨false, true⟩, parse_rules.std_rules, false, 46⟩).valid = false := by
  have hmnd : is_integer m = false := by rcases hm with rfl | rfl <;> rfl
  have hm256 : m < 256 := by rcases hm with rfl | rfl <;> norm_num
  constructor
  · unfold parse_number_string parse_number_ext
    dsimp only
    rw [if_neg (show ¬ (49 : Nat) = 45 from by omega)]
    rw [c6_digits m rest _ rfl rfl hmnd hm256 hb]
    cases rest with
    | nil =>
      rcases hm with rfl | rfl <;> exact ⟨rfl, rfl, rfl, rfl⟩
    | cons c r2 =>
      rw [c6_exp m c r2 _ _ _ _ _ hm rfl hnd]
      rw [if_neg (show ¬ (true = false) from by simp)]
      rw [scan_finish_small _ _ _ _ _ _ _ _ _ _ rfl (by norm_num) (by omega)]
      exact ⟨rfl, rfl, rfl, rfl⟩
  · unfold parse_number_string parse_number_ext
    dsimp only
    rw [if_neg (show ¬ (49 : Nat) = 45 from by omega)]
    rw [c6_digits m rest _ rfl rfl hmnd hm256 hb]
    cases rest with
    | nil =>
      rcases hm with rfl | rfl <;> rfl
    | cons c r2 =>
      rw [c6_exp m c r2 _ _ _ _ _ hm rfl hnd]
      rw [if_pos (show (false : Bool) = false from rfl)]

/-- Witness for C1 at the literal 18446744073709551615 under json rules. -/
theorem claim_C1_witness :
    (∀ c ∈ ([49, 56, 52, 52, 54, 55, 52, 52, 48, 55, 51, 55, 48, 57, 53, 53, 49, 54, 49, 53] : List Nat), is_integer c = true) ∧
    ([49, 56, 52, 52, 54, 55, 52, 52, 48, 55, 51, 55, 48, 57, 53, 53, 49, 54, 49, 53] : List Nat) ≠ [] ∧
    ([49, 56, 52, 52, 54, 55, 52, 52, 48, 55, 51, 55, 48, 57, 53, 53, 49, 54, 49, 53] : List Nat).headD 0 ≠ 48 ∧
    19 < ([49, 56, 52, 52, 54, 55, 52, 52, 48, 55, 51, 55, 48, 57, 53, 53, 49, 54, 49, 53] : List Nat).length ∧
    ((parse_number_string [49, 56, 52, 52, 54, 55, 52, 52, 48, 55, 51, 55, 48, 57, 53, 53, 49, 54, 49, 53] ⟨⟨true, true⟩, parse_rules.json_rules, true, 46⟩).valid = true ∧
     (parse_number_string [49, 56, 52, 52, 54, 55, 52, 52, 48, 55, 51, 55, 48, 57, 53, 53, 49, 54, 49, 53]
        ⟨⟨true, true⟩, parse_rules.json_rules, true, 46⟩).too_many_digits =
       (decide (20 < ([49, 56, 52, 52, 54, 55, 52, 52, 48, 55, 51, 55, 48, 57, 53, 53, 49, 54, 49, 53] : List Nat).length) ||
        decide (accDigits 0 [49, 56, 52, 52, 54, 55, 52, 52, 48, 55, 51, 55, 48, 57, 53, 53, 49, 54, 49, 53] < 10 ^ 19)) ∧
     ((decide (20 < ([49, 56, 52, 52, 54, 55, 52, 52, 48, 55, 51, 55, 48, 57, 53, 53, 49, 54, 49, 53] : List Nat).length) ||
        decide (accDigits 0 [49, 56, 52, 52, 54, 55, 52, 52, 48, 55, 51, 55, 48, 57, 53, 53, 49, 54, 49, 53] < 10 ^ 19)) = false →
      (parse_number_string [49, 56, 52, 52, 54, 55, 52, 52, 48, 55, 51, 55, 48, 57, 53, 53, 49, 54, 49, 53]
        ⟨⟨true, true⟩, parse_rules.json_rules, true, 46⟩).is_64bit_int = true ∧
      (parse_number_string [49, 56, 52, 52, 54, 55, 52, 52, 48, 55, 51, 55, 48, 57, 53, 53, 49, 54, 49, 53]
        ⟨⟨true, true⟩, parse_rules.json_rules, true, 46⟩).mantissa = accDigits 0 [49, 56, 52, 52, 54, 55, 52, 52, 48, 55, 51, 55, 48, 57, 53, 53, 49, 54, 49, 53])) :=
  ⟨by decide, by decide, by decide, by decide,
   claim_C1 [49, 56, 52, 52, 54, 55, 52, 52, 48, 55, 51, 55, 48, 57, 53, 53, 49, 54, 49, 53] (by decide) (by decide) (by decide) (by decide)⟩

/-- Counterexample to C1 as stated: under the standard rules with integer
preference set, the 20-digit literal 18446744073709551615 is flagged
too_many_digits although its digit count does not exceed 20 and its value is
not below 10^19. -/
theorem claim_C1_counterexample :
    (parse_number_string [49, 56, 52, 52, 54, 55, 52, 52, 48, 55, 51, 55, 48, 57, 53, 53, 49, 54, 49, 53]
      ⟨⟨true, true⟩, parse_rules.std_rules, true, 46⟩).too_many_digits = true ∧
    ¬ (20 < ([49, 56, 52, 52, 54, 55, 52, 52, 48, 55, 51, 55, 48, 57, 53, 53, 49, 54, 49, 53] : List Nat).length ∨ accDigits 0 [49, 56, 52, 52, 54, 55, 52, 52, 48, 55, 51, 55, 48, 57, 53, 53, 49, 54, 49, 53] < 10 ^ 19) := by
  exact ⟨by decide, by decide⟩

/-- Witness for C2 at twenty nines under the standard rules. -/
theorem claim_C2_witness :
    (∀ c ∈ ([57, 57, 57, 57, 57, 57, 57, 57, 57, 57, 57, 57, 57, 57, 57, 57, 57, 57, 57, 57] : List Nat), c < 256) ∧
    (parse_number_string [57, 57, 57, 57, 57, 57, 57, 57, 57, 57, 57, 57, 57, 57, 57, 57, 57, 57, 57, 57] ⟨⟨true, true⟩, parse_rules.std_rules, false, 46⟩).too_many_digits = true ∧
    ((parse_number_string [57, 57, 57, 57, 57, 57, 57, 57, 57, 57, 57, 57, 57, 57, 57, 57, 57, 57, 57, 57] ⟨⟨true, true⟩, parse_rules.std_rules, false, 46⟩).mantissa < 10 ^ 19 ∧
    (let intB := ([57, 57, 57, 57, 57, 57, 57, 57, 57, 57, 57, 57, 57, 57, 57, 57, 57, 57, 57, 57].drop (parse_number_string [57, 57, 57, 57, 57, 57, 57, 57, 57, 57, 57, 57, 57, 57, 57, 57, 57, 57, 57, 57] ⟨⟨true, true⟩, parse_rules.std_rules, false, 46⟩).integer.ptr).take
        (parse_number_string [57, 57, 57, 57, 57, 57, 57, 57, 57, 57, 57, 57, 57, 57, 57, 57, 57, 57, 57, 57] ⟨⟨true, true⟩, parse_rules.std_rules, false, 46⟩).integer.len
     let frB := ([57, 57, 57, 57, 57, 57, 57, 57, 57, 57, 57, 57, 57, 57, 57, 57, 57, 57, 57, 57].drop (parse_number_string [57, 57, 57, 57, 57, 57, 57, 57, 57, 57, 57, 57, 57, 57, 57, 57, 57, 57, 57, 57] ⟨⟨true, true⟩, parse_rules.std_rules, false, 46⟩).fraction.ptr).take
        (parse_number_string [57, 57, 57, 57, 57, 57, 57, 57, 57, 57, 57, 57, 57, 57, 57, 57, 57, 57, 57, 57] ⟨⟨true, true⟩, parse_rules.std_rules, false, 46⟩).fraction.len
     let t1 := rederive intB 0
     if 10 ^ 18 ≤ t1.1 then
       (parse_number_string [57, 57, 57, 57, 57, 57, 57, 57, 57, 57, 57, 57, 57, 57, 57, 57, 57, 57, 57, 57] ⟨⟨true, true⟩, parse_rules.std_rules, false, 46⟩).mantissa = t1.1 ∧
         (parse_number_string [57, 57, 57, 57, 57, 57, 57, 57, 57, 57, 57, 57, 57, 57, 57, 57, 57, 57, 57, 57] ⟨⟨true, true⟩, parse_rules.std_rules, false, 46⟩).exponent =
           ((parse_number_string [57, 57, 57, 57, 57, 57, 57, 57, 57, 57, 57, 57, 57, 57, 57, 57, 57, 57, 57, 57] ⟨⟨true, true⟩, parse_rules.std_rules, false, 46⟩).integer.len : Int) - (t1.2 : Int) +
             (parse_number_ext [57, 57, 57, 57, 57, 57, 57, 57, 57, 57, 57, 57, 57, 57, 57, 57, 57, 57, 57, 57] ⟨⟨true, true⟩, parse_rules.std_rules, false, 46⟩).exp_num
     else
       (parse_number_string [57, 57, 57, 57, 57, 57, 57, 57, 57, 57, 57, 57, 57, 57, 57, 57, 57, 57, 57, 57] ⟨⟨true, true⟩, parse_rules.std_rules, false, 46⟩).mantissa = (rederive frB t1.1).1 ∧
         (parse_number_string [57, 57, 57, 57, 57, 57, 57, 57, 57, 57, 57, 57, 57, 57, 57, 57, 57, 57, 57, 57] ⟨⟨true, true⟩, parse_rules.std_rules, false, 46⟩).exponent =
           -(((rederive frB t1.1).2 : Int)) + (parse_number_ext [57, 57, 57, 57, 57, 57, 57, 57, 57, 57, 57, 57, 57, 57, 57, 57, 57, 57, 57, 57] ⟨⟨true, true⟩, parse_rules.std_rules, false, 46⟩).exp_num)) :=
  ⟨by decide, by decide, claim_C2 [57, 57, 57, 57, 57, 57, 57, 57, 57, 57, 57, 57, 57, 57, 57, 57, 57, 57, 57, 57] ⟨⟨true, true⟩, parse_rules.std_rules, false, 46⟩ (by decide) (by decide)⟩

/-- Counterexample to C2 as stated: on twenty nines the re-derived mantissa is
not strictly below 10^18, because the digit that crosses the boundary is
consumed. -/
theorem claim_C2_counterexample :
    (parse_number_string [57, 57, 57, 57, 57, 57, 57, 57, 57, 57, 57, 57, 57, 57, 57, 57, 57, 57, 57, 57] ⟨⟨true, true⟩, parse_rules.std_rules, false, 46⟩).too_many_digits = true ∧
    ¬ (parse_number_string [57, 57, 57, 57, 57, 57, 57, 57, 57, 57, 57, 57, 57, 57, 57, 57, 57, 57, 57, 57] ⟨⟨true, true⟩, parse_rules.std_rules, false, 46⟩).mantissa < 10 ^ 18 := by
  exact ⟨by decide, by decide⟩

/-- Witness for C3 at the word whose lanes spell 12345678. -/
theorem claim_C3_witness :
    (4050765991979987505 : Nat) < U64 ∧
    (is_made_of_eight_digits_fast 4050765991979987505 = true ↔
      ((48 ≤ 4050765991979987505 % 2 ^ 8 ∧ 4050765991979987505 % 2 ^ 8 ≤ 57) ∧
       (48 ≤ 4050765991979987505 / 2 ^ 8 % 2 ^ 8 ∧ 4050765991979987505 / 2 ^ 8 % 2 ^ 8 ≤ 57) ∧
       (48 ≤ 4050765991979987505 / 2 ^ 16 % 2 ^ 8 ∧ 4050765991979987505 / 2 ^ 16 % 2 ^ 8 ≤ 57) ∧
       (48 ≤ 4050765991979987505 / 2 ^ 24 % 2 ^ 8 ∧ 4050765991979987505 / 2 ^ 24 % 2 ^ 8 ≤ 57) ∧
       (48 ≤ 4050765991979987505 / 2 ^ 32 % 2 ^ 8 ∧ 4050765991979987505 / 2 ^ 32 % 2 ^ 8 ≤ 57) ∧
       (48 ≤ 4050765991979987505 / 2 ^ 40 % 2 ^ 8 ∧ 4050765991979987505 / 2 ^ 40 % 2 ^ 8 ≤ 57) ∧
       (48 ≤ 4050765991979987505 / 2 ^ 48 % 2 ^ 8 ∧ 4050765991979987505 / 2 ^ 48 % 2 ^ 8 ≤ 57) ∧
       (48 ≤ 4050765991979987505 / 2 ^ 56 % 2 ^ 8 ∧ 4050765991979987505 / 2 ^ 56 % 2 ^ 8 ≤ 57))) :=
  ⟨by decide, claim_C3 4050765991979987505 (by decide)⟩

/-- Witness for C4 at the word whose lanes spell 12345678. -/
theorem claim_C4_witness :
    (4050765991979987505 : Nat) < U64 ∧
    is_made_of_eight_digits_fast 4050765991979987505 = true ∧
    parse_eight_digits_unrolled 4050765991979987505 =
      (4050765991979987505 % 2 ^ 8 - 48) * 10 ^ 7 + (4050765991979987505 / 2 ^ 8 % 2 ^ 8 - 48) * 10 ^ 6 +
        (4050765991979987505 / 2 ^ 16 % 2 ^ 8 - 48) * 10 ^ 5 + (4050765991979987505 / 2 ^ 24 % 2 ^ 8 - 48) * 10 ^ 4 +
        (4050765991979987505 / 2 ^ 32 % 2 ^ 8 - 48) * 10 ^ 3 + (4050765991979987505 / 2 ^ 40 % 2 ^ 8 - 48) * 10 ^ 2 +
        (4050765991979987505 / 2 ^ 48 % 2 ^ 8 - 48) * 10 + (4050765991979987505 / 2 ^ 56 % 2 ^ 8 - 48) :=
  ⟨by decide, by decide, claim_C4 4050765991979987505 (by decide) (by decide)⟩

/-- Witness for C6 at the four bytes of 1.5e. -/
theorem claim_C6_witness :
    ((101 : Nat) = 101 ∨ (101 : Nat) = 69) ∧
    (∀ c ∈ ([] : List Nat), c < 256) ∧
    no_exp_digit [] ∧
    (((parse_number_string (49 :: 46 :: 53 :: 101 :: [])
        ⟨⟨true, true⟩, parse_rules.std_rules, false, 46⟩).valid = true ∧
     (parse_number_string (49 :: 46 :: 53 :: 101 :: [])
        ⟨⟨true, true⟩, parse_rules.std_rules, false, 46⟩).lastmatch = some 3 ∧
     (parse_number_string (49 :: 46 :: 53 :: 101 :: [])
        ⟨⟨true, true⟩, parse_rules.std_rules, false, 46⟩).mantissa = 15 ∧
     (parse_number_string (49 :: 46 :: 53 :: 101 :: [])
        ⟨⟨true, true⟩, parse_rules.std_rules, false, 46⟩).exponent = -1) ∧
    (parse_number_string (49 :: 46 :: 53 :: 101 :: [])
        ⟨⟨false, true⟩, parse_rules.std_rules, false, 46⟩).valid = false) :=
  ⟨Or.inl rfl, by decide, Or.inl rfl,
   claim_C6 101 [] (Or.inl rfl) (by decide) (Or.inl rfl)⟩

/-- Witness for C7 at the literal 01. -/
theorem claim_C7_witness :
    is_integer 49 = true ∧
    (⟨⟨true, true⟩, parse_rules.json_rules, false, 46⟩ : parse_options).rules = parse_rules.json_rules ∧
    ((parse_number_string (48 :: 49 :: []) ⟨⟨true, true⟩, parse_rules.json_rules, false, 46⟩).valid = false ∧
     (parse_number_string [48, 49]
       ⟨⟨true, true⟩, parse_rules.std_rules, false, 46⟩).valid = true) :=
  ⟨by decide, rfl, claim_C7 49 [] ⟨⟨true, true⟩, parse_rules.json_rules, false, 46⟩ (by decide) rfl⟩

/-- Witness for C8 at the literal 1. -/
theorem claim_C8_witness :
    ([49] : List Nat) ≠ [] ∧
    (parse_number_string [49] ⟨⟨true, true⟩, parse_rules.std_rules, false, 46⟩).valid = true ∧
    (∃ m, (parse_number_string [49] ⟨⟨true, true⟩, parse_rules.std_rules, false, 46⟩).lastmatch = some m ∧ 0 < m ∧
      m ≤ ([49] : List Nat).length) :=
  ⟨by decide, by decide, claim_C8 [49] ⟨⟨true, true⟩, parse_rules.std_rules, false, 46⟩ (by decide) (by decide)⟩

/-- Witness for C9 at the single byte a. -/
theorem claim_C9_witness :
    (parse_number_string [97] ⟨⟨true, true⟩, parse_rules.std_rules, false, 46⟩).valid = false ∧
    ((parse_number_string [97] ⟨⟨true, true⟩, parse_rules.std_rules, false, 46⟩).lastmatch = none ∧
     (parse_number_string [97] ⟨⟨true, true⟩, parse_rules.std_rules, false, 46⟩).mantissa = 0 ∧
     (parse_number_string [97] ⟨⟨true, true⟩, parse_rules.std_rules, false, 46⟩).exponent = 0 ∧
     (parse_number_string [97] ⟨⟨true, true⟩, parse_rules.std_rules, false, 46⟩).is_64bit_int = false ∧
     (parse_number_string [97] ⟨⟨true, true⟩, parse_rules.std_rules, false, 46⟩).too_many_digits = false) :=
  ⟨by decide, claim_C9 [97] ⟨⟨true, true⟩, parse_rules.std_rules, false, 46⟩ (by decide)⟩

/-- Counterexample to C9 as stated: the rejected literal 01 under json rules
still fills the integer span, so a rejection path does write part of the
result. -/
theorem claim_C9_counterexample :
    (parse_number_string [48, 49] ⟨⟨true, true⟩, parse_rules.json_rules, false, 46⟩).valid = false ∧
    (parse_number_string [48, 49] ⟨⟨true, true⟩, parse_rules.json_rules, false, 46⟩).integer.len = 2 := by
  exact ⟨by decide, by decide⟩

/-- Witness for C10 at the literals .5 and -.5. -/
theorem claim_C10_witness :
    (∀ c ∈ ([53] : List Nat), is_integer c = true) ∧
    ([53] : List Nat) ≠ [] ∧
    ([53] : List Nat).length ≤ 19 ∧
    (((parse_number_string (46 :: [53]) ⟨⟨true, true⟩, parse_rules.std_rules, false, 46⟩).valid = true ∧
      (parse_number_string (46 :: [53]) ⟨⟨true, true⟩, parse_rules.std_rules, false, 46⟩).integer.ptr = 0 ∧
      (parse_number_string (46 :: [53]) ⟨⟨true, true⟩, parse_rules.std_rules, false, 46⟩).integer.len = 0 ∧
      (parse_number_string (46 :: [53]) ⟨⟨true, true⟩, parse_rules.std_rules, false, 46⟩).fraction.ptr = 1 ∧
      (parse_number_string (46 :: [53]) ⟨⟨true, true⟩, parse_rules.std_rules, false, 46⟩).fraction.len = ([53] : List Nat).length ∧
      (parse_number_string (46 :: [53]) ⟨⟨true, true⟩, parse_rules.std_rules, false, 46⟩).mantissa = digitsVal [53] ∧
      (parse_number_string (46 :: [53]) ⟨⟨true, true⟩, parse_rules.std_rules, false, 46⟩).exponent = -(([53] : List Nat).length : Int)) ∧
     ((parse_number_string (45 :: 46 :: [53]) ⟨⟨true, true⟩, parse_rules.std_rules, false, 46⟩).valid = true ∧
      (parse_number_string (45 :: 46 :: [53]) ⟨⟨true, true⟩, parse_rules.std_rules, false, 46⟩).negative = true ∧
      (parse_number_string (45 :: 46 :: [53]) ⟨⟨true, true⟩, parse_rules.std_rules, false, 46⟩).integer.ptr = 1 ∧
      (parse_number_string (45 :: 46 :: [53]) ⟨⟨true, true⟩, parse_rules.std_rules, false, 46⟩).integer.len = 0 ∧
      (parse_number_string (45 :: 46 :: [53]) ⟨⟨true, true⟩, parse_rules.std_rules, false, 46⟩).fraction.ptr = 2 ∧
      (parse_number_string (45 :: 46 :: [53]) ⟨⟨true, true⟩, parse_rules.std_rules, false, 46⟩).fraction.len = ([53] : List Nat).length ∧
      (parse_number_string (45 :: 46 :: [53]) ⟨⟨true, true⟩, parse_rules.std_rules, false, 46⟩).mantissa = digitsVal [53] ∧
      (parse_number_string (45 :: 46 :: [53]) ⟨⟨true, true⟩, parse_rules.std_rules, false, 46⟩).exponent =
        -(([53] : List Nat).length : Int))) :=
  ⟨by decide, by decide, by decide,
   claim_C10 [53] (by decide) (by decide) (by decide)⟩

/-- Counterexample to C10 as stated: with twenty fraction digits the mantissa
is the truncated re-derived value, not the fraction digit value. -/
theorem claim_C10_counterexample :
    (parse_number_string (46 :: [49, 49, 49, 49, 49, 49, 49, 49, 49, 49, 49, 49, 49, 49, 49, 49, 49, 49, 49, 49]) ⟨⟨true, true⟩, parse_rules.std_rules, false, 46⟩).valid = true ∧
    (parse_number_string (46 :: [49, 49, 49, 49, 49, 49, 49, 49, 49, 49, 49, 49, 49, 49, 49, 49, 49, 49, 49, 49]) ⟨⟨true, true⟩, parse_rules.std_rules, false, 46⟩).mantissa ≠ digitsVal [49, 49, 49, 49, 49, 49, 49, 49, 49, 49, 49, 49, 49, 49, 49, 49, 49, 49, 49, 49] := by
  exact ⟨by decide, by decide⟩

end FastFloat
